import Mathlib

/-!
# Money-Eyes Robot firmware (`src/main.cpp`): shallow embedding and verified properties

The firmware is a single translation unit with global mutable state.  The embedding
makes that state an explicit record (`State`), makes every external response
(SD card, heap, millisecond counter, I2S driver, random number generator) an explicit
input, and records every externally visible call in an event trace.

* `unsigned long` values are naturals reduced modulo `2^32`.
* `int` values are integers; every increment, decrement and narrowing goes through `wrapInt`.
* The only unbounded loop (the streaming loop of `playWAVFile`) takes a fuel argument and
  reports whether it left the loop and why.
-/

namespace MoneyEyes

/-! ## Constants of the translation unit -/

/-- I2S sample rate, `#define I2S_SAMPLE_RATE 44100`. -/
def I2S_SAMPLE_RATE : Nat := 44100

/-- Bits per sample, `#define I2S_SAMPLE_BITS 16`. -/
def I2S_SAMPLE_BITS : Nat := 16

/-- Channel count, `#define I2S_CHANNELS 2`. -/
def I2S_CHANNELS : Nat := 2

/-- BCLK pin, `#define I2S_BCK_IO (12)`. -/
def I2S_BCK_IO : Int := 12

/-- LRC pin, `#define I2S_WS_IO (13)`. -/
def I2S_WS_IO : Int := 13

/-- DIN pin, `#define I2S_DO_IO (15)`. -/
def I2S_DO_IO : Int := 15

/-- Pin value `I2S_PIN_NO_CHANGE` of the driver header. -/
def I2S_PIN_NO_CHANGE : Int := -1

/-- Success code `ESP_OK` of the driver header. -/
def ESP_OK : Int := 0

def LEFT_EYE_X : Int := 100
def RIGHT_EYE_X : Int := 220
def EYE_CENTER_Y : Int := 120
def WHITE_RADIUS : Int := 55
def BLACK_RADIUS : Int := 20

def TFT_BLACK : Nat := 0
def TFT_WHITE : Nat := 65535

/-- Modulus of the 32-bit `unsigned long` type of the target. -/
def ULONG_MOD : Nat := 4294967296

/-- Wrap of an integer into the signed 32-bit range of `int`. -/
def wrapInt (x : Int) : Int := (x + 2147483648) % 4294967296 - 2147483648

/-- Membership in the 32-bit `int` range. -/
def IsInt32 (x : Int) : Prop := -2147483648 ≤ x ∧ x ≤ 2147483647

instance (x : Int) : Decidable (IsInt32 x) := by
  unfold IsInt32
  infer_instance

/-- Size of one interleaved 16-bit stereo frame in bytes, `(bitDepth/8)*channelCount`. -/
def bytesPerFrame : Nat := (I2S_SAMPLE_BITS / 8) * I2S_CHANNELS

/-! ## Data model -/

/-- Fields of the `i2s_config_t` initialiser in `setupI2S`. -/
structure I2SConfig where
  masterTx : Bool
  sample_rate : Nat
  bits_per_sample : Nat
  dma_buf_count : Nat
  dma_buf_len : Nat
  use_apll : Bool
  tx_desc_auto_clear : Bool
  fixed_mclk : Nat
  deriving DecidableEq, Repr

/-- Fields of the `i2s_pin_config_t` initialiser in `setupI2S`. -/
structure PinConfig where
  bck_io_num : Int
  ws_io_num : Int
  data_out_num : Int
  data_in_num : Int
  deriving DecidableEq, Repr

/-- Arguments of `i2s_set_clk`. -/
structure ClockConfig where
  rate : Nat
  bits : Nat
  channels : Nat
  deriving DecidableEq, Repr

/-- What is installed on I2S port 0. -/
structure I2SPort where
  driver : Option I2SConfig
  pins : Option PinConfig
  clock : Option ClockConfig
  deriving DecidableEq, Repr

/-- The global variables of `main.cpp` together with the state of I2S port 0. -/
structure State where
  currentX : Int
  currentY : Int
  targetX : Int
  targetY : Int
  moneyMode : Bool
  previousMoney : Bool
  nextBlinkTime : Nat
  nextMoneyTime : Nat
  i2sInitialized : Bool
  soundPlayedFlag : Bool
  port : I2SPort
  deriving DecidableEq, Repr

/-- The messages printed on the serial line by the audio code. -/
inductive Msg where
  | installFailed
  | pinFailed
  | clockFailed
  | initOk
  | wavNotFound
  | playing
  | allocFailed
  | writeError (code : Int)
  | playbackCompleted
  deriving DecidableEq, Repr

/-- Pin modes used by `setupI2S`. -/
inductive PinMode where
  | input
  | inputPulldown
  deriving DecidableEq, Repr

/-- Sprite drawing calls of `drawEyes`. -/
inductive DrawOp where
  | fillScreen (color : Nat)
  | fillCircle (x y r : Int) (color : Nat)
  | fillRect (x y w h : Int) (color : Nat)
  | setTextDatumMC
  | setTextSize (n : Nat)
  | setTextColor (fg bg : Nat)
  | drawDollar (x y : Int)
  deriving DecidableEq, Repr

/-- Externally visible calls, in program order. -/
inductive Event where
  | wifiOff
  | btStop
  | pinMode (pin : Int) (mode : PinMode)
  | delay (ms : Nat)
  | driverUninstall
  | driverInstall (cfg : I2SConfig) (result : Int)
  | setPin (cfg : PinConfig) (result : Int)
  | setClk (cfg : ClockConfig) (result : Int)
  | zeroDma
  | i2sWriteSilence (len : Nat) (ticks : Nat)
  | i2sWrite (len : Nat) (data : List Nat)
  | sdOpen (ok : Bool)
  | seek (offset : Nat)
  | malloc (ok : Bool)
  | millis (t : Nat)
  | read (ret : Int)
  | yield
  | free
  | close
  | serial (m : Msg)
  | pushSprite (ops : List DrawOp)
  deriving DecidableEq, Repr

/-- Behaviour of an opened `File`: `seek`, `available` and `read(buffer, n)`.
`read` gives the returned count, the bytes stored at the start of the buffer and the
next state of the file. -/
structure Source (σ : Type) where
  seek : σ → Nat → σ
  available : σ → Bool
  read : σ → Nat → Int × List Nat × σ

/-- External responses seen by one call of `playWAVFile`. -/
structure PlayEnv (σ : Type) where
  source : Source σ
  /-- Result of `SD.open`: `none` when the file cannot be opened. -/
  file : Option σ
  /-- Result of `malloc(4096)`: `none` on failure, else the initial buffer contents. -/
  buffer : Option (List Nat)
  /-- Raw value behind the k-th `millis()` call of the session. -/
  clock : Nat → Nat
  /-- Result code of the k-th `i2s_write` of the streaming loop. -/
  writeResult : Nat → Int

/-- Why the streaming loop was left. -/
inductive LoopExit where
  | exhausted
  | deadline
  | writeFailed
  deriving DecidableEq, Repr

/-- Local state of the streaming loop of `playWAVFile`. -/
structure Stream (σ : Type) where
  file : σ
  buffer : List Nat
  /-- Number of `millis()` calls made so far in this session. -/
  clk : Nat
  /-- Number of streaming `i2s_write` calls made so far. -/
  wr : Nat
  trace : List Event

/-! ## setupI2S -/

/-- The `i2s_config` initialiser. -/
def i2s_config : I2SConfig :=
  { masterTx := true, sample_rate := I2S_SAMPLE_RATE, bits_per_sample := 16,
    dma_buf_count := 8, dma_buf_len := 1024, use_apll := false,
    tx_desc_auto_clear := true, fixed_mclk := 0 }

/-- The `pin_config` initialiser. -/
def pin_config : PinConfig :=
  { bck_io_num := I2S_BCK_IO, ws_io_num := I2S_WS_IO, data_out_num := I2S_DO_IO,
    data_in_num := I2S_PIN_NO_CHANGE }

/-- The arguments of the `i2s_set_clk` call. -/
def clk_config : ClockConfig :=
  { rate := I2S_SAMPLE_RATE, bits := 16, channels := 2 }

/-- Results of the three fallible driver calls of one `setupI2S` run. -/
structure HwResponses where
  install : Int
  setPin : Int
  setClk : Int
  deriving DecidableEq, Repr

/-- Concatenation of `n` copies of `evs`: a counted `for` loop with a fixed body. -/
def repeatEvents : Nat → List Event → List Event
  | 0, _ => []
  | n + 1, evs => evs ++ repeatEvents n evs

/-- Lines 74-77 of `setupI2S`: tear down the driver when the flag is set. -/
def teardown (st : State) : State × List Event :=
  if st.i2sInitialized then
    ({ st with i2sInitialized := false, port := { st.port with driver := none } },
      [Event.driverUninstall])
  else (st, [])

/-- Lines 79-91 of `setupI2S`: radio off, pins to input, settle. -/
def quietEnvironment : List Event :=
  [Event.wifiOff, Event.btStop,
   Event.pinMode 25 PinMode.inputPulldown, Event.pinMode 26 PinMode.inputPulldown,
   Event.pinMode I2S_BCK_IO PinMode.input, Event.pinMode I2S_WS_IO PinMode.input,
   Event.pinMode I2S_DO_IO PinMode.input, Event.delay 100]

/-- Lines 129-139 of `setupI2S`: clear the DMA buffer and prime it with silence. -/
def primeSilence : List Event :=
  [Event.zeroDma, Event.delay 100] ++
    repeatEvents 15 [Event.i2sWriteSilence 4096 1000, Event.delay 5]

/-- The function `setupI2S` (lines 73-143). -/
def setupI2S (resp : HwResponses) (st : State) : State × List Event :=
  let s0 := (teardown st).1
  let e0 := (teardown st).2 ++ quietEnvironment
  if resp.install ≠ ESP_OK then
    (s0, e0 ++ [Event.driverInstall i2s_config resp.install, Event.serial Msg.installFailed])
  else
    let s1 := { s0 with port := { s0.port with driver := some i2s_config } }
    let e1 := e0 ++ [Event.driverInstall i2s_config resp.install]
    if resp.setPin ≠ ESP_OK then
      (s1, e1 ++ [Event.setPin pin_config resp.setPin, Event.serial Msg.pinFailed])
    else
      let s2 := { s1 with port := { s1.port with pins := some pin_config } }
      let e2 := e1 ++ [Event.setPin pin_config resp.setPin]
      if resp.setClk ≠ ESP_OK then
        (s2, e2 ++ [Event.setClk clk_config resp.setClk, Event.serial Msg.clockFailed])
      else
        let s3 := { s2 with port := { s2.port with clock := some clk_config } }
        ({ s3 with i2sInitialized := true },
          e2 ++ [Event.setClk clk_config resp.setClk] ++ primeSilence ++
            [Event.serial Msg.initOk])

/-! ## playWAVFile -/

/-- The k-th `millis()` reading of a session, an `unsigned long`. -/
def millis {σ : Type} (env : PlayEnv σ) (k : Nat) : Nat := env.clock k % ULONG_MOD

/-- The expression `millis() - startTime` in `unsigned long` arithmetic. -/
def elapsed (t startTime : Nat) : Nat := (t + ULONG_MOD - startTime) % ULONG_MOD

/-- The statement `bytesRead = (bytesRead / 4) * 4` (C division truncates). -/
def alignChunk (bytesRead : Int) : Int := Int.tdiv bytesRead 4 * 4

/-- Lines 189-192: `if ((millis() - startTime) % 100 == 0) yield();`. -/
def yieldCheck {σ : Type} (env : PlayEnv σ) (startTime : Nat) (s : Stream σ) : Stream σ :=
  let t := millis env s.clk
  let s1 := { s with clk := s.clk + 1, trace := s.trace ++ [Event.millis t] }
  if elapsed t startTime % 100 = 0 then { s1 with trace := s1.trace ++ [Event.yield] }
  else s1

/-- One evaluation of the loop condition (line 176) followed, when it holds, by one
execution of the loop body (lines 177-192).  The second component is `none` when
control returns to the loop condition. -/
def streamStep {σ : Type} (env : PlayEnv σ) (startTime : Nat) (s : Stream σ) :
    Stream σ × Option LoopExit :=
  if env.source.available s.file = false then (s, some LoopExit.exhausted)
  else
    let t := millis env s.clk
    let s1 := { s with clk := s.clk + 1, trace := s.trace ++ [Event.millis t] }
    if ¬ elapsed t startTime < 5000 then (s1, some LoopExit.deadline)
    else
      let r := env.source.read s1.file 4096
      let bytesRead := r.1
      let buf := r.2.1 ++ s1.buffer.drop r.2.1.length
      let s2 := { s1 with file := r.2.2, buffer := buf,
                          trace := s1.trace ++ [Event.read bytesRead] }
      if 0 < bytesRead then
        let len := (alignChunk bytesRead).toNat
        let s3 := { s2 with wr := s2.wr + 1,
                            trace := s2.trace ++ [Event.i2sWrite len (buf.take len)] }
        if env.writeResult s2.wr ≠ ESP_OK then
          ({ s3 with trace := s3.trace ++
                [Event.serial (Msg.writeError (env.writeResult s2.wr))] },
            some LoopExit.writeFailed)
        else (yieldCheck env startTime s3, none)
      else (yieldCheck env startTime s2, none)

/-- The `while` loop of lines 176-193, run for at most `fuel` evaluations of its
condition.  The exit is `none` when the fuel ran out with the loop still running. -/
def streamLoop {σ : Type} (env : PlayEnv σ) (startTime : Nat) :
    Nat → Stream σ → Stream σ × Option LoopExit
  | 0, s => (s, none)
  | fuel + 1, s =>
    match streamStep env startTime s with
    | (s1, some e) => (s1, some e)
    | (s1, none) => streamLoop env startTime fuel s1

/-- Lines 195-217: the fade-out after the streaming loop. -/
def drainSequence : List Event :=
  repeatEvents 3 [Event.i2sWriteSilence 512 100, Event.delay 5] ++
    [Event.zeroDma, Event.delay 50] ++
    repeatEvents 5 [Event.i2sWriteSilence 512 50, Event.delay 10] ++
    [Event.zeroDma, Event.delay 20]

/-- Events of lines 154-174 once the file is open and the buffer allocated. -/
def sessionPrologue (startTime : Nat) : List Event :=
  [Event.sdOpen true, Event.serial Msg.playing, Event.seek 44, Event.malloc true,
   Event.millis startTime]

/-- Events of lines 219-223. -/
def sessionEpilogue : List Event :=
  [Event.free, Event.close, Event.serial Msg.playbackCompleted]

/-- The function `playWAVFile` (lines 151-224).  The result is `none` when the
streaming loop is still running after `fuel` evaluations of its condition. -/
def playWAVFile {σ : Type} (fuel : Nat) (env : PlayEnv σ) (st : State) :
    Option (State × List Event) :=
  if !st.i2sInitialized || st.soundPlayedFlag then some (st, [])
  else
    match env.file with
    | none => some (st, [Event.sdOpen false, Event.serial Msg.wavNotFound])
    | some f =>
      match env.buffer with
      | none =>
        some (st, [Event.sdOpen true, Event.serial Msg.playing, Event.seek 44,
                   Event.malloc false, Event.serial Msg.allocFailed, Event.close])
      | some buf =>
        let startTime := millis env 0
        let r := streamLoop env startTime fuel
          { file := env.source.seek f 44, buffer := buf, clk := 1, wr := 0, trace := [] }
        match r.2 with
        | none => none
        | some _ =>
          some ({ st with soundPlayedFlag := true },
            sessionPrologue startTime ++ r.1.trace ++ drainSequence ++ sessionEpilogue)

/-! ## drawEyes -/

/-- The sprite calls of lines 228-248. -/
def drawOps (moneyMode : Bool) (offsetX offsetY : Int) (closed : Bool) : List DrawOp :=
  [DrawOp.fillScreen TFT_BLACK,
   DrawOp.fillCircle LEFT_EYE_X EYE_CENTER_Y WHITE_RADIUS TFT_WHITE,
   DrawOp.fillCircle RIGHT_EYE_X EYE_CENTER_Y WHITE_RADIUS TFT_WHITE] ++
  (if closed then
    [DrawOp.fillRect (LEFT_EYE_X - 30) (EYE_CENTER_Y - 5) 60 10 TFT_BLACK,
     DrawOp.fillRect (RIGHT_EYE_X - 30) (EYE_CENTER_Y - 5) 60 10 TFT_BLACK]
  else if moneyMode then
    [DrawOp.setTextDatumMC, DrawOp.setTextSize 5, DrawOp.setTextColor TFT_BLACK TFT_WHITE,
     DrawOp.drawDollar (wrapInt (LEFT_EYE_X + offsetX)) (wrapInt (EYE_CENTER_Y + offsetY)),
     DrawOp.drawDollar (wrapInt (RIGHT_EYE_X + offsetX)) (wrapInt (EYE_CENTER_Y + offsetY))]
  else
    [DrawOp.fillCircle (wrapInt (LEFT_EYE_X + offsetX)) (wrapInt (EYE_CENTER_Y + offsetY))
       BLACK_RADIUS TFT_BLACK,
     DrawOp.fillCircle (wrapInt (RIGHT_EYE_X + offsetX)) (wrapInt (EYE_CENTER_Y + offsetY))
       BLACK_RADIUS TFT_BLACK])

/-- Lines 257-262: reset of the latch on leaving money mode, then the edge memory. -/
def finishFrame (st : State) : State :=
  let s1 := if !st.moneyMode && st.previousMoney then { st with soundPlayedFlag := false }
            else st
  { s1 with previousMoney := s1.moneyMode }

/-- The function `drawEyes` (lines 227-263). -/
def drawEyes {σ : Type} (fuel : Nat) (env : PlayEnv σ) (offsetX offsetY : Int)
    (closed : Bool) (st : State) : Option (State × List Event) :=
  let frame := Event.pushSprite (drawOps st.moneyMode offsetX offsetY closed)
  let played :=
    if st.moneyMode && !st.previousMoney && !st.soundPlayedFlag then playWAVFile fuel env st
    else some (st, [])
  played.map fun r => (finishFrame r.1, frame :: r.2)

/-! ## loop -/

/-- External responses seen by one execution of `loop`. -/
structure TickInput (σ : Type) where
  /-- Raw value behind `millis()` at line 373. -/
  now : Nat
  /-- Value of `random(2000, 5000)`. -/
  blinkDelay : Nat
  /-- Value of `random(4000, 8000)`. -/
  moneyDelay : Nat
  /-- Value of `random(-30, 31)`. -/
  randX : Int
  /-- Value of `random(-15, 16)`. -/
  randY : Int
  /-- Environment of `drawEyes(currentX, currentY, true)`. -/
  envClosed : PlayEnv σ
  /-- Environment of `drawEyes(currentX, currentY, false)` inside the blink. -/
  envOpen : PlayEnv σ
  /-- Environment of the final `drawEyes(currentX, currentY)`. -/
  envFrame : PlayEnv σ

/-- Lines 375-381: the blink. -/
def blinkPhase {σ : Type} (fuel : Nat) (inp : TickInput σ) (now : Nat) (st : State) :
    Option (State × List Event) :=
  if now ≥ st.nextBlinkTime then
    (drawEyes fuel inp.envClosed st.currentX st.currentY true st).bind fun r1 =>
      (drawEyes fuel inp.envOpen r1.1.currentX r1.1.currentY false r1.1).map fun r2 =>
        ({ r2.1 with nextBlinkTime := (now + inp.blinkDelay) % ULONG_MOD },
          r1.2 ++ [Event.delay 120] ++ r2.2)
  else some (st, [])

/-- Lines 383-387: the money mode toggle. -/
def moneyToggle (now moneyDelay : Nat) (st : State) : State :=
  if now ≥ st.nextMoneyTime then
    { st with moneyMode := !st.moneyMode, nextMoneyTime := (now + moneyDelay) % ULONG_MOD }
  else st

/-- Lines 389-393: a new target once the pupil has arrived. -/
def retarget (randX randY : Int) (st : State) : State :=
  if st.currentX = st.targetX ∧ st.currentY = st.targetY then
    { st with targetX := wrapInt randX, targetY := wrapInt randY }
  else st

/-- One axis of lines 395-397. -/
def stepAxis (current target : Int) : Int :=
  if current < target then wrapInt (current + 1)
  else if current > target then wrapInt (current - 1)
  else current

/-- Lines 395-397: one pixel toward the target on each axis. -/
def movePupil (st : State) : State :=
  { st with currentX := stepAxis st.currentX st.targetX,
            currentY := stepAxis st.currentY st.targetY }

/-- Lines 383-397: the state update between the blink and the final frame. -/
def advance {σ : Type} (inp : TickInput σ) (now : Nat) (st : State) : State :=
  movePupil (retarget inp.randX inp.randY (moneyToggle now inp.moneyDelay st))

/-- The function `loop` (lines 372-402). -/
def loop {σ : Type} (fuel : Nat) (inp : TickInput σ) (st : State) :
    Option (State × List Event) :=
  let now := inp.now % ULONG_MOD
  (blinkPhase fuel inp now st).bind fun r1 =>
    let s := advance inp now r1.1
    (drawEyes fuel inp.envFrame s.currentX s.currentY false s).map fun r2 =>
      (r2.1, r1.2 ++ r2.2 ++ [Event.delay 10])

/-- Successive executions of `loop`, one per input. -/
def runLoop {σ : Type} (fuel : Nat) : List (TickInput σ) → State → Option State
  | [], st => some st
  | inp :: rest, st => (loop fuel inp st).bind fun r => runLoop fuel rest r.1


/-! ## Sequences of frames -/

/-- One call of `drawEyes` as seen from outside: the value `loop` has given to
`moneyMode`, the arguments of the call and the environment it runs in. -/
structure Frame (σ : Type) where
  moneyMode : Bool
  offsetX : Int
  offsetY : Int
  closed : Bool
  env : PlayEnv σ

/-- Render one frame: `drawEyes` with the global `moneyMode` as `loop` left it. -/
def renderFrame {σ : Type} (fuel : Nat) (fr : Frame σ) (st : State) :
    Option (State × List Event) :=
  drawEyes fuel fr.env fr.offsetX fr.offsetY fr.closed { st with moneyMode := fr.moneyMode }

/-- Render frames in order; the result lists, per frame, the state after it and its
events. -/
def renderFrames {σ : Type} (fuel : Nat) :
    List (Frame σ) → State → Option (List (State × List Event))
  | [], _ => some []
  | fr :: rest, st =>
    (renderFrame fuel fr st).bind fun r =>
      (renderFrames fuel rest r.1).map fun rs => r :: rs

/-- The state after the last of the rendered frames (`st` when there is none). -/
def endState (st : State) : List (State × List Event) → State
  | [] => st
  | r :: rs => endState r.1 rs

/-! ## Observations on traces -/

/-- The animation variables that only `loop` itself writes. -/
def core (st : State) : Int × Int × Int × Int × Bool × Nat :=
  (st.currentX, st.currentY, st.targetX, st.targetY, st.moneyMode, st.nextMoneyTime)

/-- The travel envelope of pupil and target. -/
def InEnvelope (st : State) : Prop :=
  -30 ≤ st.currentX ∧ st.currentX ≤ 30 ∧ -15 ≤ st.currentY ∧ st.currentY ≤ 15 ∧
  -30 ≤ st.targetX ∧ st.targetX ≤ 30 ∧ -15 ≤ st.targetY ∧ st.targetY ≤ 15

/-- Number of playback sessions announced in a trace (`"Playing WAV file..."`). -/
def playbackStarts : List Event → Nat
  | [] => 0
  | Event.serial Msg.playing :: rest => playbackStarts rest + 1
  | _ :: rest => playbackStarts rest

/-- Concatenation, in order, of the chunks passed to the streaming `i2s_write`. -/
def writtenBytes : List Event → List Nat
  | [] => []
  | Event.i2sWrite _ data :: rest => data ++ writtenBytes rest
  | _ :: rest => writtenBytes rest

/-- Reads from the file and streaming writes to the I2S driver. -/
def isStreamIo : Event → Bool
  | Event.read _ => true
  | Event.i2sWrite _ _ => true
  | _ => false

/-- File reads; the streaming loop performs exactly one per iteration. -/
def isRead : Event → Bool
  | Event.read _ => true
  | _ => false

/-- Any call that hands samples to the I2S driver. -/
def isHardwareWrite : Event → Bool
  | Event.i2sWrite _ _ => true
  | Event.i2sWriteSilence _ _ => true
  | _ => false

/-- A clock reading that shows 5000 ms or more elapsed since `startTime`. -/
def isLate (startTime : Nat) : Event → Bool
  | Event.millis t => decide (5000 ≤ elapsed t startTime)
  | _ => false

/-- No read or streaming write follows a clock reading that shows the deadline passed. -/
def DeadlineRespected (startTime : Nat) (tr : List Event) : Prop :=
  tr.Pairwise fun a b => isLate startTime a = true → isStreamIo b = false

/-! ## A file on the SD card -/

/-- An open file: its bytes and the read position. -/
structure WavFile where
  bytes : List Nat
  pos : Nat
  deriving DecidableEq, Repr

/-- The SD `File` operations used by `playWAVFile`, for a file whose reads deliver
`min(n, bytes remaining)` bytes: `seek` sets the position, `available` tells whether
bytes remain, `read` returns the next bytes and advances. -/
def sdFile : Source WavFile :=
  { seek := fun f off => { f with pos := off },
    available := fun f => decide (f.pos < f.bytes.length),
    read := fun f n =>
      (((f.bytes.drop f.pos).take n).length, (f.bytes.drop f.pos).take n,
        { f with pos := f.pos + ((f.bytes.drop f.pos).take n).length }) }

/-- The entry state of the streaming loop: file positioned by `seek(44)`, the fresh
buffer, one `millis()` call made (for `startTime`). -/
def streamStart {σ : Type} (env : PlayEnv σ) (f : σ) (buf : List Nat) : Stream σ :=
  { file := env.source.seek f 44, buffer := buf, clk := 1, wr := 0, trace := [] }

/-! ## Intermediate states of one loop iteration -/

/-- The loop state after the condition has been evaluated with data available. -/
def afterCondition {σ : Type} (env : PlayEnv σ) (s : Stream σ) : Stream σ :=
  { s with clk := s.clk + 1, trace := s.trace ++ [Event.millis (millis env s.clk)] }

/-- The loop state after the read of line 177. -/
def afterRead {σ : Type} (env : PlayEnv σ) (s : Stream σ) : Stream σ :=
  { file := (env.source.read s.file 4096).2.2,
    buffer := (env.source.read s.file 4096).2.1 ++
      s.buffer.drop (env.source.read s.file 4096).2.1.length,
    clk := s.clk + 1, wr := s.wr,
    trace := s.trace ++ [Event.millis (millis env s.clk)] ++
      [Event.read (env.source.read s.file 4096).1] }

/-- The loop state after the write of line 182. -/
def afterWrite {σ : Type} (env : PlayEnv σ) (s : Stream σ) : Stream σ :=
  { afterRead env s with
    wr := s.wr + 1,
    trace := (afterRead env s).trace ++
      [Event.i2sWrite (alignChunk (env.source.read s.file 4096).1).toNat
        ((afterRead env s).buffer.take (alignChunk (env.source.read s.file 4096).1).toNat)] }

/-- Every clock reading recorded in the trace lies between `startTime` and `bound`. -/
def ReadingsWithin (startTime bound : Nat) (tr : List Event) : Prop :=
  ∀ t, Event.millis t ∈ tr → startTime ≤ t ∧ t ≤ bound

/-! ## Concrete inputs used to exercise the definitions -/

/-- The globals as initialised at lines 60-70, with nothing installed on the port. -/
def bootState : State :=
  { currentX := 0, currentY := 0, targetX := 0, targetY := 0,
    moneyMode := false, previousMoney := false,
    nextBlinkTime := 0, nextMoneyTime := 0,
    i2sInitialized := false, soundPlayedFlag := false,
    port := { driver := none, pins := none, clock := none } }

/-- A source that never has data. -/
def emptySource : Source Unit :=
  { seek := fun s _ => s, available := fun _ => false, read := fun s _ => (0, [], s) }

/-- An environment in which the WAV file cannot be opened. -/
def missingFileEnv : PlayEnv Unit :=
  { source := emptySource, file := none, buffer := none,
    clock := fun k => k, writeResult := fun _ => ESP_OK }

/-- A source whose every read delivers 4097 bytes. -/
def oddSource : Source Unit :=
  { seek := fun s _ => s, available := fun _ => true,
    read := fun s _ => (4097, List.replicate 4097 7, s) }

/-- An environment around `oddSource` with a clock that advances 1 ms per reading. -/
def oddEnv : PlayEnv Unit :=
  { source := oddSource, file := some (), buffer := some [],
    clock := fun k => k, writeResult := fun _ => ESP_OK }

/-- The loop state on entry to the streaming loop of a session in `oddEnv`. -/
def oddStream : Stream Unit :=
  { file := (), buffer := [], clk := 1, wr := 0, trace := [] }

/-- A state between blinks and mode changes, pupil at rest on its target. -/
def idleState : State :=
  { bootState with nextBlinkTime := 9000, nextMoneyTime := 6000 }

/-- A tick at 1000 ms whose random draws are a target of (5, -3). -/
def idleTick : TickInput Unit :=
  { now := 1000, blinkDelay := 2500, moneyDelay := 4000, randX := 5, randY := -3,
    envClosed := missingFileEnv, envOpen := missingFileEnv, envFrame := missingFileEnv }

/-- The outcome of `idleTick` on `idleState`. -/
def idleTickResult : State × List Event :=
  ({ idleState with currentX := 1, currentY := -1, targetX := 5, targetY := -3 },
   [Event.pushSprite (drawOps false 1 (-1) false), Event.delay 10])

/-- A tick at 7000 ms, past the money deadline of `idleState`. -/
def toggleTick : TickInput Unit :=
  { idleTick with now := 7000, moneyDelay := 4500 }

/-- A state shortly before the millisecond counter wraps. -/
def rolloverState : State :=
  { bootState with nextBlinkTime := 4294967000, nextMoneyTime := 4294965000 }

/-- A tick 1296 ms before the counter wraps, drawing a delay of 4000 ms. -/
def rolloverTick : TickInput Unit :=
  { idleTick with now := 4294966000, moneyDelay := 4000 }

/-- The state after two `idleTick` ticks from `idleState`. -/
def twoTicksState : State :=
  { idleState with currentX := 2, currentY := -2, targetX := 5, targetY := -3 }

/-- The outcome of `toggleTick` on `idleState`. -/
def toggleTickResult : State × List Event :=
  ({ idleState with currentX := 1, currentY := -1, targetX := 5, targetY := -3,
                    moneyMode := true, previousMoney := true, nextMoneyTime := 11500 },
   [Event.pushSprite (drawOps true 1 (-1) false), Event.delay 10])

/-- All three driver calls succeed. -/
def okResponses : HwResponses := { install := ESP_OK, setPin := ESP_OK, setClk := ESP_OK }

/-- The driver install fails (`ESP_FAIL`). -/
def installFailResponses : HwResponses := { install := -1, setPin := ESP_OK, setClk := ESP_OK }

/-- The driver installs, the pin setup fails. -/
def pinFailResponses : HwResponses := { install := ESP_OK, setPin := -1, setClk := ESP_OK }

/-- A 53-byte file: a 44-byte header and 9 payload bytes (two frames and one odd byte);
byte `i` has value `i`. -/
def tinyWav : WavFile := { bytes := List.range 53, pos := 0 }

/-- A session on `tinyWav`: the clock starts at 1000 ms and advances 3 ms per reading
(for the first 1000 readings), every write succeeds. -/
def tinyEnv : PlayEnv WavFile :=
  { source := sdFile, file := some tinyWav, buffer := some (List.replicate 4096 0),
    clock := fun k => 1000 + 3 * min k 1000, writeResult := fun _ => ESP_OK }

/-- The events of the streaming loop on `tinyEnv`. -/
def tinyTrace : List Event :=
  [Event.millis 1003, Event.read 9, Event.i2sWrite 8 [44, 45, 46, 47, 48, 49, 50, 51],
   Event.millis 1006]

/-- The loop state when the streaming loop on `tinyEnv` is left. -/
def tinyStreamEnd : Stream WavFile :=
  { file := { bytes := List.range 53, pos := 53 },
    buffer := [44, 45, 46, 47, 48, 49, 50, 51, 52] ++ List.replicate 4087 0,
    clk := 3, wr := 1, trace := tinyTrace }

/-- The boot state once `setupI2S` has succeeded. -/
def readyState : State := (setupI2S okResponses bootState).1

/-- A source that always has data and delivers the same 10 bytes on every read. -/
def endlessSource : Source Unit :=
  { seek := fun s _ => s, available := fun _ => true,
    read := fun s _ => (10, [0, 1, 2, 3, 4, 5, 6, 7, 8, 9], s) }

/-- A never-ending source under a clock that advances 3000 ms per reading until it
stops at 30000 ms. -/
def endlessEnv : PlayEnv Unit :=
  { source := endlessSource, file := some (), buffer := some [],
    clock := fun k => min (3000 * k) 30000, writeResult := fun _ => ESP_OK }

/-- The events of the streaming loop on `endlessEnv`. -/
def endlessTrace : List Event :=
  [Event.millis 3000, Event.read 10, Event.i2sWrite 8 [0, 1, 2, 3, 4, 5, 6, 7],
   Event.millis 6000, Event.yield, Event.millis 9000]

/-- A never-ending source (`oddSource`) under a clock that advances 1 ms per reading
for the first 100000 readings. -/
def steadyEnv : PlayEnv Unit :=
  { source := oddSource, file := some (), buffer := some [],
    clock := fun k => min k 100000, writeResult := fun _ => ESP_OK }

/-- A frame rendered in Normal mode, with the file `tinyWav` on the card. -/
def normalFrame : Frame WavFile :=
  { moneyMode := false, offsetX := 0, offsetY := 0, closed := false, env := tinyEnv }

/-- A frame rendered in Special mode, with the file `tinyWav` on the card. -/
def specialFrame : Frame WavFile := { normalFrame with moneyMode := true }

/-- A closed-eye (blink) frame rendered in Special mode. -/
def specialBlinkFrame : Frame WavFile := { specialFrame with closed := true }

/-- A Special-mode frame during which the WAV file cannot be opened. -/
def noFileFrame : Frame WavFile :=
  { specialFrame with env := { tinyEnv with file := none } }

/-- A Special-mode frame during which `malloc(4096)` fails. -/
def noMemoryFrame : Frame WavFile :=
  { specialFrame with env := { tinyEnv with buffer := none } }

/-- The state during a Special episode in which the clip has been played. -/
def playedState : State :=
  { readyState with moneyMode := true, previousMoney := true, soundPlayedFlag := true }

/-- The state during a Special episode whose playback attempt found no file. -/
def silentState : State :=
  { readyState with moneyMode := true, previousMoney := true }

/-- The per-frame outcome of rendering
`[normalFrame, specialFrame, specialBlinkFrame, normalFrame]` from `readyState`. -/
def episodeResult : List (State × List Event) :=
  [(readyState, [Event.pushSprite (drawOps false 0 0 false)]),
   (playedState, Event.pushSprite (drawOps true 0 0 false) ::
      (sessionPrologue 1000 ++ tinyTrace ++ drainSequence ++ sessionEpilogue)),
   (playedState, [Event.pushSprite (drawOps true 0 0 true)]),
   (readyState, [Event.pushSprite (drawOps false 0 0 false)])]

/-- The session of `tinyEnv` with an I2S driver that rejects every write (`ESP_FAIL`). -/
def rejectingEnv : PlayEnv WavFile := { tinyEnv with writeResult := fun _ => -1 }

/-! ## Frame lemmas: what `drawEyes` and the blink leave alone -/

theorem playWAVFile_state {σ : Type} (fuel : Nat) (env : PlayEnv σ) (st : State)
    (r : State × List Event) (h : playWAVFile fuel env st = some r) :
    r.1 = st ∨ r.1 = { st with soundPlayedFlag := true } := by
  unfold playWAVFile at h
  split at h
  · simp at h; subst h; simp
  · split at h
    · simp at h; subst h; simp
    · split at h
      · simp at h; subst h; simp
      · simp only at h
        split at h
        · simp at h
        · simp at h; subst h; simp

theorem finishFrame_core (st : State) : core (finishFrame st) = core st := by
  unfold finishFrame core
  split <;> rfl

theorem drawEyes_core {σ : Type} (fuel : Nat) (env : PlayEnv σ) (x y : Int) (closed : Bool)
    (st : State) (r : State × List Event) (h : drawEyes fuel env x y closed st = some r) :
    core r.1 = core st := by
  unfold drawEyes at h
  simp only [Option.map_eq_some'] at h
  obtain ⟨p, hp, rfl⟩ := h
  rw [finishFrame_core]
  split at hp
  · rcases playWAVFile_state fuel env st p hp with h1 | h1
    · rw [h1]
    · rw [h1]
      rfl
  · simp at hp; subst hp; rfl

theorem blinkPhase_core {σ : Type} (fuel : Nat) (inp : TickInput σ) (now : Nat) (st : State)
    (r : State × List Event) (h : blinkPhase fuel inp now st = some r) :
    core r.1 = core st := by
  unfold blinkPhase at h
  split at h
  · simp only [Option.bind_eq_some, Option.map_eq_some'] at h
    obtain ⟨r1, h1, r2, h2, rfl⟩ := h
    have c1 := drawEyes_core _ _ _ _ _ _ _ h1
    have c2 := drawEyes_core _ _ _ _ _ _ _ h2
    rw [← c1, ← c2]
    rfl
  · simp at h; subst h; rfl

theorem advance_core {σ : Type} (inp : TickInput σ) (now : Nat) (a b : State)
    (h : core a = core b) : core (advance inp now a) = core (advance inp now b) := by
  cases a
  cases b
  simp only [core, Prod.mk.injEq] at h
  obtain ⟨rfl, rfl, rfl, rfl, rfl, rfl⟩ := h
  simp only [advance, movePupil, retarget, moneyToggle, core]
  split <;> split <;> rfl

theorem loop_core {σ : Type} (fuel : Nat) (inp : TickInput σ) (st : State)
    (r : State × List Event) (h : loop fuel inp st = some r) :
    core r.1 = core (advance inp (inp.now % ULONG_MOD) st) := by
  unfold loop at h
  simp only [Option.bind_eq_some, Option.map_eq_some'] at h
  obtain ⟨r1, h1, r2, h2, rfl⟩ := h
  rw [drawEyes_core _ _ _ _ _ _ _ h2]
  exact advance_core inp _ _ _ (blinkPhase_core _ _ _ _ _ h1)


/-! ## The streaming loop, one step at a time -/

theorem yieldCheck_trace {σ : Type} (env : PlayEnv σ) (startTime : Nat) (s : Stream σ) :
    (yieldCheck env startTime s).trace =
      s.trace ++ Event.millis (millis env s.clk) ::
        (if elapsed (millis env s.clk) startTime % 100 = 0 then [Event.yield] else []) := by
  by_cases h : elapsed (millis env s.clk) startTime % 100 = 0 <;> simp [yieldCheck, h]

theorem yieldCheck_clk {σ : Type} (env : PlayEnv σ) (startTime : Nat) (s : Stream σ) :
    (yieldCheck env startTime s).clk = s.clk + 1 := by
  by_cases h : elapsed (millis env s.clk) startTime % 100 = 0 <;> simp [yieldCheck, h]

theorem yieldCheck_wr {σ : Type} (env : PlayEnv σ) (startTime : Nat) (s : Stream σ) :
    (yieldCheck env startTime s).wr = s.wr := by
  by_cases h : elapsed (millis env s.clk) startTime % 100 = 0 <;> simp [yieldCheck, h]

theorem yieldCheck_file {σ : Type} (env : PlayEnv σ) (startTime : Nat) (s : Stream σ) :
    (yieldCheck env startTime s).file = s.file := by
  by_cases h : elapsed (millis env s.clk) startTime % 100 = 0 <;> simp [yieldCheck, h]

theorem yieldCheck_buffer {σ : Type} (env : PlayEnv σ) (startTime : Nat) (s : Stream σ) :
    (yieldCheck env startTime s).buffer = s.buffer := by
  by_cases h : elapsed (millis env s.clk) startTime % 100 = 0 <;> simp [yieldCheck, h]

theorem streamStep_exhausted {σ : Type} (env : PlayEnv σ) (startTime : Nat) (s : Stream σ)
    (ha : env.source.available s.file = false) :
    streamStep env startTime s = (s, some LoopExit.exhausted) := by
  unfold streamStep
  simp [ha]

theorem streamStep_deadline {σ : Type} (env : PlayEnv σ) (startTime : Nat) (s : Stream σ)
    (ha : env.source.available s.file = true)
    (hl : ¬ elapsed (millis env s.clk) startTime < 5000) :
    streamStep env startTime s = (afterCondition env s, some LoopExit.deadline) := by
  unfold streamStep afterCondition
  simp [ha, hl]

theorem streamStep_skip {σ : Type} (env : PlayEnv σ) (startTime : Nat) (s : Stream σ)
    (ha : env.source.available s.file = true)
    (he : elapsed (millis env s.clk) startTime < 5000)
    (hn : ¬ 0 < (env.source.read s.file 4096).1) :
    streamStep env startTime s = (yieldCheck env startTime (afterRead env s), none) := by
  unfold streamStep afterRead
  simp [ha, he, hn]

theorem streamStep_fail {σ : Type} (env : PlayEnv σ) (startTime : Nat) (s : Stream σ)
    (ha : env.source.available s.file = true)
    (he : elapsed (millis env s.clk) startTime < 5000)
    (hn : 0 < (env.source.read s.file 4096).1)
    (hw : env.writeResult s.wr ≠ ESP_OK) :
    streamStep env startTime s =
      ({ afterWrite env s with
          trace := (afterWrite env s).trace ++
            [Event.serial (Msg.writeError (env.writeResult s.wr))] },
        some LoopExit.writeFailed) := by
  unfold streamStep afterWrite afterRead
  simp [ha, he, hn, hw]

theorem streamStep_ok {σ : Type} (env : PlayEnv σ) (startTime : Nat) (s : Stream σ)
    (ha : env.source.available s.file = true)
    (he : elapsed (millis env s.clk) startTime < 5000)
    (hn : 0 < (env.source.read s.file 4096).1)
    (hw : env.writeResult s.wr = ESP_OK) :
    streamStep env startTime s = (yieldCheck env startTime (afterWrite env s), none) := by
  unfold streamStep afterWrite afterRead
  simp [ha, he, hn, hw]

/-! ## C3: chunk alignment -/

theorem alignChunk_pos (n : Int) (hn : 0 < n) :
    ((alignChunk n).toNat : Int) = n / 4 * 4 := by
  unfold alignChunk
  rw [Int.tdiv_eq_ediv (le_of_lt hn) (by decide)]
  have h : 0 ≤ n / 4 * 4 := by omega
  exact Int.toNat_of_nonneg h

/-- C3: when the loop condition holds and the read returns a positive count `n`, the
iteration issues exactly one hardware write, directly after the read, and the length
passed to it is the largest multiple of `bytesPerFrame = 4` not exceeding `n`:
a multiple of 4, at most `n`, greater than `n - 4`; for `n = 4097` it is 4096. -/
theorem C3_chunk_alignment {σ : Type} (env : PlayEnv σ) (startTime : Nat) (s : Stream σ)
    (n : Int)
    (havail : env.source.available s.file = true)
    (htime : elapsed (millis env s.clk) startTime < 5000)
    (hread : (env.source.read s.file 4096).1 = n) (hn : 0 < n) :
    ∃ len data rest,
      (streamStep env startTime s).1.trace =
        s.trace ++ Event.millis (millis env s.clk) :: Event.read n ::
          Event.i2sWrite len data :: rest ∧
      (∀ l d, Event.i2sWrite l d ∉ rest) ∧
      (len : Int) = alignChunk n ∧
      bytesPerFrame = 4 ∧ bytesPerFrame ∣ len ∧ (len : Int) ≤ n ∧ n < (len : Int) + 4 ∧
      (∀ m : Nat, bytesPerFrame ∣ m → (m : Int) ≤ n → m ≤ len) ∧
      (n = 4097 → len = 4096) := by
  have hlen := alignChunk_pos n hn
  have hac : alignChunk n = n / 4 * 4 := by
    unfold alignChunk
    rw [Int.tdiv_eq_ediv (le_of_lt hn) (by decide)]
  have hb : bytesPerFrame = 4 := by decide
  have key : ((alignChunk n).toNat : Int) = alignChunk n ∧
      bytesPerFrame = 4 ∧ bytesPerFrame ∣ (alignChunk n).toNat ∧
      ((alignChunk n).toNat : Int) ≤ n ∧ n < ((alignChunk n).toNat : Int) + 4 ∧
      (∀ m : Nat, bytesPerFrame ∣ m → (m : Int) ≤ n → m ≤ (alignChunk n).toNat) ∧
      (n = 4097 → (alignChunk n).toNat = 4096) := by
    rw [hb]
    refine ⟨by rw [hlen, hac], rfl, ?_, by omega, by omega, ?_, by omega⟩
    · omega
    · intro m hm hmn
      omega
  unfold streamStep
  simp only [havail, htime, hread, hn, Bool.true_eq_false, if_false, not_true_eq_false,
    if_true]
  by_cases hw : env.writeResult s.wr = ESP_OK
  · simp only [hw, ne_eq, not_true_eq_false, if_false, yieldCheck_trace]
    refine ⟨(alignChunk n).toNat,
      List.take (alignChunk n).toNat ((env.source.read s.file 4096).2.1 ++
        List.drop (env.source.read s.file 4096).2.1.length s.buffer),
      Event.millis (millis env (s.clk + 1)) ::
        (if elapsed (millis env (s.clk + 1)) startTime % 100 = 0 then [Event.yield] else []),
      ?_, ?_, key⟩
    · simp
    · intro l d
      split <;> simp
  · simp only [hw, ne_eq, not_false_eq_true, if_true]
    refine ⟨(alignChunk n).toNat,
      List.take (alignChunk n).toNat ((env.source.read s.file 4096).2.1 ++
        List.drop (env.source.read s.file 4096).2.1.length s.buffer),
      [Event.serial (Msg.writeError (env.writeResult s.wr))], ?_, ?_, key⟩
    · simp
    · intro l d
      simp

/-- Witness of C3 on a read of 4097 bytes. -/
theorem C3_chunk_alignment_witness :
    oddEnv.source.available oddStream.file = true ∧
    elapsed (millis oddEnv oddStream.clk) 0 < 5000 ∧
    (oddEnv.source.read oddStream.file 4096).1 = 4097 ∧ (0 : Int) < 4097 ∧
    ∃ len data rest,
      (streamStep oddEnv 0 oddStream).1.trace =
        oddStream.trace ++ Event.millis (millis oddEnv oddStream.clk) :: Event.read 4097 ::
          Event.i2sWrite len data :: rest ∧
      (∀ l d, Event.i2sWrite l d ∉ rest) ∧
      (len : Int) = alignChunk 4097 ∧
      bytesPerFrame = 4 ∧ bytesPerFrame ∣ len ∧ (len : Int) ≤ 4097 ∧
      (4097 : Int) < (len : Int) + 4 ∧
      (∀ m : Nat, bytesPerFrame ∣ m → (m : Int) ≤ 4097 → m ≤ len) ∧
      ((4097 : Int) = 4097 → len = 4096) :=
  ⟨rfl, by decide, rfl, by decide,
    C3_chunk_alignment oddEnv 0 oddStream 4097 rfl (by decide) rfl (by decide)⟩

/-! ## C7: rate-limited stepping -/

theorem wrapInt_of_range (x : Int) (h : IsInt32 x) : wrapInt x = x := by
  unfold IsInt32 at h
  unfold wrapInt
  omega

theorem wrapInt_range (x : Int) : IsInt32 (wrapInt x) := by
  unfold IsInt32 wrapInt
  omega

theorem stepAxis_spec (c t : Int) (hc : IsInt32 c) (ht : IsInt32 t) :
    (c < t → stepAxis c t = c + 1) ∧ (t < c → stepAxis c t = c - 1) ∧
    (c = t → stepAxis c t = c) := by
  unfold IsInt32 at hc ht
  unfold stepAxis wrapInt
  refine ⟨fun h => ?_, fun h => ?_, fun h => ?_⟩
  · rw [if_pos h]
    omega
  · rw [if_neg (by omega), if_pos (by omega)]
    omega
  · rw [if_neg (by omega), if_neg (by omega)]

/-- The pupil variables after `advance`: the target is redrawn exactly when the pupil
is on its target, then each axis takes one `stepAxis`. -/
theorem advance_pupil {σ : Type} (inp : TickInput σ) (now : Nat) (st : State) :
    ((advance inp now st).targetX = st.targetX ∨
      (advance inp now st).targetX = wrapInt inp.randX) ∧
    ((advance inp now st).targetY = st.targetY ∨
      (advance inp now st).targetY = wrapInt inp.randY) ∧
    (advance inp now st).currentX = stepAxis st.currentX (advance inp now st).targetX ∧
    (advance inp now st).currentY = stepAxis st.currentY (advance inp now st).targetY := by
  cases st
  simp only [advance, movePupil, retarget, moneyToggle]
  split <;> split <;> simp

theorem stepAxis_bounds (c t : Int) (hc : IsInt32 c) (ht : IsInt32 t) :
    |stepAxis c t - c| ≤ 1 ∧ |stepAxis c t - t| ≤ |c - t| := by
  obtain ⟨h1, h2, h3⟩ := stepAxis_spec c t hc ht
  rcases lt_trichotomy c t with h | h | h
  · rw [h1 h]
    constructor
    · rw [abs_le]; constructor <;> omega
    · rw [abs_le]; constructor <;> cases abs_cases (c - t) <;> omega
  · rw [h3 h, h]
    simp
  · rw [h2 h]
    constructor
    · rw [abs_le]; constructor <;> omega
    · rw [abs_le]; constructor <;> cases abs_cases (c - t) <;> omega

/-- C7: in every completed loop tick, from every state whose pupil variables are `int`
values, each of `currentX` and `currentY` changes by at most 1 in absolute value; on
each axis the offset after the tick is no farther from the target in force after the
tick than the offset before it; an axis that differs from that target moves exactly 1
toward it and an axis already on it does not move. -/
theorem C7_rate_limited_stepping {σ : Type} (fuel : Nat) (inp : TickInput σ) (st : State)
    (r : State × List Event)
    (hcx : IsInt32 st.currentX) (hcy : IsInt32 st.currentY)
    (htx : IsInt32 st.targetX) (hty : IsInt32 st.targetY)
    (hrun : loop fuel inp st = some r) :
    |r.1.currentX - st.currentX| ≤ 1 ∧ |r.1.currentY - st.currentY| ≤ 1 ∧
    |r.1.currentX - r.1.targetX| ≤ |st.currentX - r.1.targetX| ∧
    |r.1.currentY - r.1.targetY| ≤ |st.currentY - r.1.targetY| ∧
    (st.currentX < r.1.targetX → r.1.currentX = st.currentX + 1) ∧
    (r.1.targetX < st.currentX → r.1.currentX = st.currentX - 1) ∧
    (st.currentX = r.1.targetX → r.1.currentX = st.currentX) ∧
    (st.currentY < r.1.targetY → r.1.currentY = st.currentY + 1) ∧
    (r.1.targetY < st.currentY → r.1.currentY = st.currentY - 1) ∧
    (st.currentY = r.1.targetY → r.1.currentY = st.currentY) := by
  have hc := loop_core fuel inp st r hrun
  simp only [core, Prod.mk.injEq] at hc
  obtain ⟨e1, e2, e3, e4, _, _⟩ := hc
  obtain ⟨a1, a2, a3, a4⟩ := advance_pupil inp (inp.now % ULONG_MOD) st
  rw [← e3] at a1 a3
  rw [← e4] at a2 a4
  rw [← e1] at a3
  rw [← e2] at a4
  have rtx : IsInt32 r.1.targetX := by
    rcases a1 with h | h <;> rw [h]
    · exact htx
    · exact wrapInt_range _
  have rty : IsInt32 r.1.targetY := by
    rcases a2 with h | h <;> rw [h]
    · exact hty
    · exact wrapInt_range _
  obtain ⟨x1, x2, x3⟩ := stepAxis_spec st.currentX r.1.targetX hcx rtx
  obtain ⟨y1, y2, y3⟩ := stepAxis_spec st.currentY r.1.targetY hcy rty
  obtain ⟨bx1, bx2⟩ := stepAxis_bounds st.currentX r.1.targetX hcx rtx
  obtain ⟨by1, by2⟩ := stepAxis_bounds st.currentY r.1.targetY hcy rty
  rw [a3, a4]
  exact ⟨bx1, by1, bx2, by2, x1, x2, x3, y1, y2, y3⟩

/-- Witness of C7: a tick from rest that draws the target (5, -3). -/
theorem C7_rate_limited_stepping_witness :
    IsInt32 idleState.currentX ∧ IsInt32 idleState.currentY ∧
    IsInt32 idleState.targetX ∧ IsInt32 idleState.targetY ∧
    loop 0 idleTick idleState = some idleTickResult ∧
    (|idleTickResult.1.currentX - idleState.currentX| ≤ 1 ∧
     |idleTickResult.1.currentY - idleState.currentY| ≤ 1 ∧
     |idleTickResult.1.currentX - idleTickResult.1.targetX| ≤
       |idleState.currentX - idleTickResult.1.targetX| ∧
     |idleTickResult.1.currentY - idleTickResult.1.targetY| ≤
       |idleState.currentY - idleTickResult.1.targetY| ∧
     (idleState.currentX < idleTickResult.1.targetX →
       idleTickResult.1.currentX = idleState.currentX + 1) ∧
     (idleTickResult.1.targetX < idleState.currentX →
       idleTickResult.1.currentX = idleState.currentX - 1) ∧
     (idleState.currentX = idleTickResult.1.targetX →
       idleTickResult.1.currentX = idleState.currentX) ∧
     (idleState.currentY < idleTickResult.1.targetY →
       idleTickResult.1.currentY = idleState.currentY + 1) ∧
     (idleTickResult.1.targetY < idleState.currentY →
       idleTickResult.1.currentY = idleState.currentY - 1) ∧
     (idleState.currentY = idleTickResult.1.targetY →
       idleTickResult.1.currentY = idleState.currentY)) :=
  ⟨by decide, by decide, by decide, by decide, by decide,
    C7_rate_limited_stepping 0 idleTick idleState idleTickResult
      (by decide) (by decide) (by decide) (by decide) (by decide)⟩

/-! ## C2: travel envelope -/

theorem loop_envelope {σ : Type} (fuel : Nat) (inp : TickInput σ) (st : State)
    (r : State × List Event) (henv : InEnvelope st)
    (hdraw : -30 ≤ inp.randX ∧ inp.randX ≤ 30 ∧ -15 ≤ inp.randY ∧ inp.randY ≤ 15)
    (hrun : loop fuel inp st = some r) : InEnvelope r.1 := by
  have hc := loop_core fuel inp st r hrun
  simp only [core, Prod.mk.injEq] at hc
  obtain ⟨e1, e2, e3, e4, _, _⟩ := hc
  obtain ⟨a1, a2, a3, a4⟩ := advance_pupil inp (inp.now % ULONG_MOD) st
  rw [← e3] at a1 a3
  rw [← e4] at a2 a4
  rw [← e1] at a3
  rw [← e2] at a4
  unfold InEnvelope at henv ⊢
  have wx : wrapInt inp.randX = inp.randX := wrapInt_of_range _ (by unfold IsInt32; omega)
  have wy : wrapInt inp.randY = inp.randY := wrapInt_of_range _ (by unfold IsInt32; omega)
  rw [wx] at a1
  rw [wy] at a2
  have tx : -30 ≤ r.1.targetX ∧ r.1.targetX ≤ 30 := by
    rcases a1 with h | h <;> rw [h] <;> omega
  have ty : -15 ≤ r.1.targetY ∧ r.1.targetY ≤ 15 := by
    rcases a2 with h | h <;> rw [h] <;> omega
  obtain ⟨x1, x2, x3⟩ := stepAxis_spec st.currentX r.1.targetX
    (by unfold IsInt32; omega) (by unfold IsInt32; omega)
  obtain ⟨y1, y2, y3⟩ := stepAxis_spec st.currentY r.1.targetY
    (by unfold IsInt32; omega) (by unfold IsInt32; omega)
  have cx : -30 ≤ r.1.currentX ∧ r.1.currentX ≤ 30 := by
    rw [a3]
    rcases lt_trichotomy st.currentX r.1.targetX with h | h | h
    · rw [x1 h]; omega
    · rw [x3 h]; omega
    · rw [x2 h]; omega
  have cy : -15 ≤ r.1.currentY ∧ r.1.currentY ≤ 15 := by
    rw [a4]
    rcases lt_trichotomy st.currentY r.1.targetY with h | h | h
    · rw [y1 h]; omega
    · rw [y3 h]; omega
    · rw [y2 h]; omega
  exact ⟨cx.1, cx.2, cy.1, cy.2, tx.1, tx.2, ty.1, ty.2⟩

theorem runLoop_envelope {σ : Type} (fuel : Nat) (inps : List (TickInput σ)) :
    ∀ (st0 st : State), InEnvelope st0 →
      (∀ inp ∈ inps, -30 ≤ inp.randX ∧ inp.randX ≤ 30 ∧ -15 ≤ inp.randY ∧ inp.randY ≤ 15) →
      runLoop fuel inps st0 = some st → InEnvelope st := by
  induction inps with
  | nil =>
    intro st0 st h0 _ hrun
    simp only [runLoop, Option.some.injEq] at hrun
    rw [← hrun]
    exact h0
  | cons inp rest ih =>
    intro st0 st h0 hdraw hrun
    simp only [runLoop, Option.bind_eq_some] at hrun
    obtain ⟨r, hr, hrest⟩ := hrun
    have h1 := loop_envelope fuel inp st0 r h0 (hdraw inp (List.mem_cons_self _ _)) hr
    exact ih r.1 st h1 (fun i hi => hdraw i (List.mem_cons_of_mem _ hi)) hrest

/-- C2: starting with `currentX = currentY = targetX = targetY = 0`, after any number of
completed loop ticks and for every outcome of the target draws within
`random(-30,31)` and `random(-15,16)`, the pupil satisfies `-30 ≤ currentX ≤ 30` and
`-15 ≤ currentY ≤ 15`, and the target stays in the same envelope. -/
theorem C2_travel_envelope {σ : Type} (fuel : Nat) (inps : List (TickInput σ))
    (st0 st : State)
    (hx : st0.currentX = 0) (hy : st0.currentY = 0)
    (htx : st0.targetX = 0) (hty : st0.targetY = 0)
    (hdraw : ∀ inp ∈ inps,
      -30 ≤ inp.randX ∧ inp.randX ≤ 30 ∧ -15 ≤ inp.randY ∧ inp.randY ≤ 15)
    (hrun : runLoop fuel inps st0 = some st) :
    (-30 ≤ st.currentX ∧ st.currentX ≤ 30) ∧ (-15 ≤ st.currentY ∧ st.currentY ≤ 15) ∧
    (-30 ≤ st.targetX ∧ st.targetX ≤ 30) ∧ (-15 ≤ st.targetY ∧ st.targetY ≤ 15) := by
  have h0 : InEnvelope st0 := by
    unfold InEnvelope
    rw [hx, hy, htx, hty]
    decide
  have h := runLoop_envelope fuel inps st0 st h0 hdraw hrun
  unfold InEnvelope at h
  obtain ⟨h1, h2, h3, h4, h5, h6, h7, h8⟩ := h
  exact ⟨⟨h1, h2⟩, ⟨h3, h4⟩, ⟨h5, h6⟩, ⟨h7, h8⟩⟩

/-- Witness of C2: two ticks from rest toward the drawn target (5, -3). -/
theorem C2_travel_envelope_witness :
    idleState.currentX = 0 ∧ idleState.currentY = 0 ∧
    idleState.targetX = 0 ∧ idleState.targetY = 0 ∧
    (∀ inp ∈ [idleTick, idleTick],
      -30 ≤ inp.randX ∧ inp.randX ≤ 30 ∧ -15 ≤ inp.randY ∧ inp.randY ≤ 15) ∧
    runLoop 0 [idleTick, idleTick] idleState = some twoTicksState ∧
    ((-30 ≤ twoTicksState.currentX ∧ twoTicksState.currentX ≤ 30) ∧
     (-15 ≤ twoTicksState.currentY ∧ twoTicksState.currentY ≤ 15) ∧
     (-30 ≤ twoTicksState.targetX ∧ twoTicksState.targetX ≤ 30) ∧
     (-15 ≤ twoTicksState.targetY ∧ twoTicksState.targetY ≤ 15)) :=
  ⟨rfl, rfl, rfl, rfl, by decide, by decide,
    C2_travel_envelope 0 [idleTick, idleTick] idleState twoTicksState rfl rfl rfl rfl
      (by decide) (by decide)⟩

/-! ## C9: mode toggle and reschedule -/

theorem advance_money {σ : Type} (inp : TickInput σ) (now : Nat) (st : State) :
    (now ≥ st.nextMoneyTime →
      (advance inp now st).moneyMode = (!st.moneyMode) ∧
      (advance inp now st).nextMoneyTime = (now + inp.moneyDelay) % ULONG_MOD) ∧
    (now < st.nextMoneyTime →
      (advance inp now st).moneyMode = st.moneyMode ∧
      (advance inp now st).nextMoneyTime = st.nextMoneyTime) := by
  cases st
  simp only [advance, movePupil, retarget, moneyToggle]
  constructor
  · intro h
    rw [if_pos h]
    split <;> simp
  · intro h
    rw [if_neg (not_le.mpr h)]
    split <;> simp

/-- C9 (amended): in every completed loop tick with timestamp `now`, if
`now ≥ nextMoneyTime` then `moneyMode` is negated and `nextMoneyTime` becomes
`(now + r) mod 2^32` for the drawn `r` with `4000 ≤ r ≤ 8000`; whenever `now + r`
does not exceed the range of `unsigned long`, the new deadline is `now + r` and lies at
least 4000 ms and at most 8000 ms after `now`.  If `now < nextMoneyTime`, `moneyMode`
and `nextMoneyTime` are both unchanged by the tick. -/
theorem C9_mode_toggle_modular {σ : Type} (fuel : Nat) (inp : TickInput σ) (st : State)
    (r : State × List Event)
    (hdelay : 4000 ≤ inp.moneyDelay ∧ inp.moneyDelay ≤ 8000)
    (hrun : loop fuel inp st = some r) :
    (inp.now % ULONG_MOD ≥ st.nextMoneyTime →
      r.1.moneyMode = (!st.moneyMode) ∧
      r.1.nextMoneyTime = (inp.now % ULONG_MOD + inp.moneyDelay) % ULONG_MOD ∧
      (inp.now % ULONG_MOD + inp.moneyDelay < ULONG_MOD →
        r.1.nextMoneyTime = inp.now % ULONG_MOD + inp.moneyDelay ∧
        inp.now % ULONG_MOD + 4000 ≤ r.1.nextMoneyTime ∧
        r.1.nextMoneyTime ≤ inp.now % ULONG_MOD + 8000)) ∧
    (inp.now % ULONG_MOD < st.nextMoneyTime →
      r.1.moneyMode = st.moneyMode ∧ r.1.nextMoneyTime = st.nextMoneyTime) := by
  have hc := loop_core fuel inp st r hrun
  simp only [core, Prod.mk.injEq] at hc
  obtain ⟨_, _, _, _, e5, e6⟩ := hc
  obtain ⟨m1, m2⟩ := advance_money inp (inp.now % ULONG_MOD) st
  rw [← e5, ← e6] at m1 m2
  refine ⟨fun h => ?_, m2⟩
  obtain ⟨t1, t2⟩ := m1 h
  refine ⟨t1, t2, fun hlt => ?_⟩
  rw [t2, Nat.mod_eq_of_lt hlt]
  omega

/-- Witness of C9 (amended): a tick at 7000 ms against a deadline of 6000 ms. -/
theorem C9_mode_toggle_modular_witness :
    (4000 ≤ toggleTick.moneyDelay ∧ toggleTick.moneyDelay ≤ 8000) ∧
    loop 0 toggleTick idleState = some toggleTickResult ∧
    ((toggleTick.now % ULONG_MOD ≥ idleState.nextMoneyTime →
      toggleTickResult.1.moneyMode = (!idleState.moneyMode) ∧
      toggleTickResult.1.nextMoneyTime =
        (toggleTick.now % ULONG_MOD + toggleTick.moneyDelay) % ULONG_MOD ∧
      (toggleTick.now % ULONG_MOD + toggleTick.moneyDelay < ULONG_MOD →
        toggleTickResult.1.nextMoneyTime = toggleTick.now % ULONG_MOD + toggleTick.moneyDelay ∧
        toggleTick.now % ULONG_MOD + 4000 ≤ toggleTickResult.1.nextMoneyTime ∧
        toggleTickResult.1.nextMoneyTime ≤ toggleTick.now % ULONG_MOD + 8000)) ∧
     (toggleTick.now % ULONG_MOD < idleState.nextMoneyTime →
      toggleTickResult.1.moneyMode = idleState.moneyMode ∧
      toggleTickResult.1.nextMoneyTime = idleState.nextMoneyTime)) :=
  ⟨by decide, by decide,
    C9_mode_toggle_modular 0 toggleTick idleState toggleTickResult (by decide) (by decide)⟩

/-- Counterexample to C9 as stated: 1296 ms before the counter wraps, with the deadline
already passed and a drawn delay of 4000 ms, the tick completes, negates `moneyMode`
and sets `nextMoneyTime` to 2704, which is neither `now + r` nor at least 4000 ms
after `now`. -/
theorem C9_counterexample :
    rolloverTick.now % ULONG_MOD = 4294966000 ∧
    rolloverState.nextMoneyTime ≤ rolloverTick.now % ULONG_MOD ∧
    (4000 ≤ rolloverTick.moneyDelay ∧ rolloverTick.moneyDelay ≤ 8000) ∧
    Option.map (fun r => (r.1.moneyMode, r.1.nextMoneyTime))
      (loop 0 rolloverTick rolloverState) = some (true, 2704) ∧
    2704 ≠ rolloverTick.now % ULONG_MOD + rolloverTick.moneyDelay ∧
    ¬ (rolloverTick.now % ULONG_MOD + 4000 ≤ 2704) := by
  decide

/-! ## C8: configuring twice -/

/-- C8 (amended): for every starting state and every fixed set of responses to driver
install, pin setup and clock setup, calling `setupI2S` twice in succession leaves the
same final state (flag and port configuration) as calling it once; when all three
responses are `ESP_OK`, the second call finds the driver installed by the first,
uninstalls it first and installs it again afterwards. -/
theorem C8_configure_twice (resp : HwResponses) (st : State) :
    (setupI2S resp (setupI2S resp st).1).1 = (setupI2S resp st).1 ∧
    (resp.install = ESP_OK ∧ resp.setPin = ESP_OK ∧ resp.setClk = ESP_OK →
      (setupI2S resp st).1.port.driver = some i2s_config ∧
      (setupI2S resp st).1.i2sInitialized = true ∧
      ∃ rest, (setupI2S resp (setupI2S resp st).1).2 =
          Event.driverUninstall :: quietEnvironment ++
            Event.driverInstall i2s_config ESP_OK :: rest) := by
  obtain ⟨ri, rp, rc⟩ := resp
  obtain ⟨cx, cy, tx, ty, mm, pm, nb, nm, ini, spf, port⟩ := st
  constructor
  · by_cases hi : ri = ESP_OK <;> by_cases hp : rp = ESP_OK <;> by_cases hc : rc = ESP_OK <;>
      cases ini <;> simp [setupI2S, teardown, hi, hp, hc]
  · rintro ⟨hi, hp, hc⟩
    simp only at hi hp hc
    subst hi hp hc
    cases ini <;> simp [setupI2S, teardown]

/-- Witness of C8 (amended) with all three driver calls succeeding. -/
theorem C8_configure_twice_witness :
    (okResponses.install = ESP_OK ∧ okResponses.setPin = ESP_OK ∧
      okResponses.setClk = ESP_OK) ∧
    ((setupI2S okResponses bootState).1.port.driver = some i2s_config ∧
      (setupI2S okResponses bootState).1.i2sInitialized = true ∧
      ∃ rest, (setupI2S okResponses (setupI2S okResponses bootState).1).2 =
          Event.driverUninstall :: quietEnvironment ++
            Event.driverInstall i2s_config ESP_OK :: rest) :=
  ⟨by decide, (C8_configure_twice okResponses bootState).2 (by decide)⟩

/-- Counterexample to C8 as stated.  When the driver install fails, neither call tears
anything down and no driver is installed at the end.  When the driver installs and the
pin setup fails, the first call returns with the driver installed and the flag clear,
and the second call does not uninstall that driver. -/
theorem C8_counterexample :
    (Event.driverUninstall ∉
        (setupI2S installFailResponses (setupI2S installFailResponses bootState).1).2 ∧
      (setupI2S installFailResponses (setupI2S installFailResponses bootState).1).1.port.driver
        = none) ∧
    ((setupI2S pinFailResponses bootState).1.port.driver = some i2s_config ∧
      (setupI2S pinFailResponses bootState).1.i2sInitialized = false ∧
      Event.driverUninstall ∉
        (setupI2S pinFailResponses (setupI2S pinFailResponses bootState).1).2) := by
  decide

/-! ## C6: drain after any playback -/

/-- Once the streaming loop is left, `playWAVFile` returns: prologue, loop events,
drain sequence, epilogue, and the latch set. -/
theorem playWAVFile_after_loop {σ : Type} (fuel : Nat) (env : PlayEnv σ) (st : State)
    (f : σ) (buf : List Nat) (s : Stream σ) (exit : LoopExit)
    (hinit : st.i2sInitialized = true) (hflag : st.soundPlayedFlag = false)
    (hfile : env.file = some f) (hbuf : env.buffer = some buf)
    (hloop : streamLoop env (millis env 0) fuel (streamStart env f buf) = (s, some exit)) :
    playWAVFile fuel env st =
      some ({ st with soundPlayedFlag := true },
        sessionPrologue (millis env 0) ++ s.trace ++ drainSequence ++ sessionEpilogue) := by
  unfold playWAVFile
  unfold streamStart at hloop
  simp only [hinit, hflag, hfile, hbuf, hloop, Bool.not_true, Bool.or_self,
    Bool.false_eq_true, if_false]

/-- C6: for every session of `playWAVFile` that has opened its source and obtained its
chunk buffer, whatever the reason the streaming loop is left (source exhausted,
deadline, failed write), the function returns; after the loop events it performs the
drain sequence (three writes of 512 zero bytes, a DMA zero, five more writes of 512
zero bytes, a final DMA zero), then frees the buffer and closes the source; on return
`i2sInitialized` is still true, the port is unchanged and the latch is set. -/
theorem C6_drain_after_playback {σ : Type} (fuel : Nat) (env : PlayEnv σ) (st : State)
    (f : σ) (buf : List Nat) (s : Stream σ) (exit : LoopExit)
    (hinit : st.i2sInitialized = true) (hflag : st.soundPlayedFlag = false)
    (hfile : env.file = some f) (hbuf : env.buffer = some buf)
    (hloop : streamLoop env (millis env 0) fuel (streamStart env f buf) = (s, some exit)) :
    ∃ st1, playWAVFile fuel env st =
        some (st1, sessionPrologue (millis env 0) ++ s.trace ++ drainSequence ++
          sessionEpilogue) ∧
      st1.i2sInitialized = true ∧ st1.port = st.port ∧ st1.soundPlayedFlag = true ∧
      drainSequence =
        [Event.i2sWriteSilence 512 100, Event.delay 5,
         Event.i2sWriteSilence 512 100, Event.delay 5,
         Event.i2sWriteSilence 512 100, Event.delay 5,
         Event.zeroDma, Event.delay 50,
         Event.i2sWriteSilence 512 50, Event.delay 10,
         Event.i2sWriteSilence 512 50, Event.delay 10,
         Event.i2sWriteSilence 512 50, Event.delay 10,
         Event.i2sWriteSilence 512 50, Event.delay 10,
         Event.i2sWriteSilence 512 50, Event.delay 10,
         Event.zeroDma, Event.delay 20] ∧
      sessionEpilogue = [Event.free, Event.close, Event.serial Msg.playbackCompleted] := by
  exact ⟨{ st with soundPlayedFlag := true },
    playWAVFile_after_loop fuel env st f buf s exit hinit hflag hfile hbuf hloop,
    hinit, rfl, rfl, rfl, rfl⟩

/-- Witness of C6: a session on a 53-byte file, left by source exhaustion. -/
theorem C6_drain_after_playback_witness :
    readyState.i2sInitialized = true ∧ readyState.soundPlayedFlag = false ∧
    tinyEnv.file = some tinyWav ∧ tinyEnv.buffer = some (List.replicate 4096 0) ∧
    streamLoop tinyEnv (millis tinyEnv 0) 2 (streamStart tinyEnv tinyWav
      (List.replicate 4096 0)) = (tinyStreamEnd, some LoopExit.exhausted) ∧
    ∃ st1, playWAVFile 2 tinyEnv readyState =
        some (st1, sessionPrologue (millis tinyEnv 0) ++ tinyStreamEnd.trace ++
          drainSequence ++ sessionEpilogue) ∧
      st1.i2sInitialized = true ∧ st1.port = readyState.port ∧
      st1.soundPlayedFlag = true ∧
      drainSequence =
        [Event.i2sWriteSilence 512 100, Event.delay 5,
         Event.i2sWriteSilence 512 100, Event.delay 5,
         Event.i2sWriteSilence 512 100, Event.delay 5,
         Event.zeroDma, Event.delay 50,
         Event.i2sWriteSilence 512 50, Event.delay 10,
         Event.i2sWriteSilence 512 50, Event.delay 10,
         Event.i2sWriteSilence 512 50, Event.delay 10,
         Event.i2sWriteSilence 512 50, Event.delay 10,
         Event.i2sWriteSilence 512 50, Event.delay 10,
         Event.zeroDma, Event.delay 20] ∧
      sessionEpilogue = [Event.free, Event.close, Event.serial Msg.playbackCompleted] :=
  ⟨rfl, rfl, rfl, rfl, rfl,
    C6_drain_after_playback 2 tinyEnv readyState tinyWav (List.replicate 4096 0)
      tinyStreamEnd LoopExit.exhausted rfl rfl rfl rfl rfl⟩

/-- A rejected write: the loop is left after the first write, the drain sequence still
runs, the source is closed and the latch is set. -/
theorem rejected_write_still_drains :
    playWAVFile 1 rejectingEnv readyState =
      some ({ readyState with soundPlayedFlag := true },
        sessionPrologue 1000 ++
          [Event.millis 1003, Event.read 9,
           Event.i2sWrite 8 [44, 45, 46, 47, 48, 49, 50, 51],
           Event.serial (Msg.writeError (-1))] ++
          drainSequence ++ sessionEpilogue) := by
  rfl

/-! ## C4: the playback deadline -/

theorem millis_lt {σ : Type} (env : PlayEnv σ) (k : Nat) : millis env k < ULONG_MOD :=
  Nat.mod_lt _ (by decide)

theorem elapsed_of_le (t startTime : Nat) (h1 : startTime ≤ t) (h2 : t < ULONG_MOD) :
    elapsed t startTime = t - startTime := by
  unfold elapsed
  unfold ULONG_MOD at h2 ⊢
  omega

theorem readings_weaken (startTime b1 b2 : Nat) (tr : List Event) (hb : b1 ≤ b2)
    (h : ReadingsWithin startTime b1 tr) : ReadingsWithin startTime b2 tr := by
  intro t ht
  have := h t ht
  omega

theorem readings_snoc_millis (startTime bound t : Nat) (tr : List Event)
    (h : ReadingsWithin startTime bound tr) (h1 : startTime ≤ t) (h2 : t ≤ bound) :
    ReadingsWithin startTime bound (tr ++ [Event.millis t]) := by
  intro u hu
  simp only [List.mem_append, List.mem_singleton, Event.millis.injEq] at hu
  rcases hu with hu | hu
  · exact h u hu
  · subst hu
    exact ⟨h1, h2⟩

theorem readings_snoc_other (startTime bound : Nat) (tr : List Event) (e : Event)
    (h : ReadingsWithin startTime bound tr) (he : ∀ t, e ≠ Event.millis t) :
    ReadingsWithin startTime bound (tr ++ [e]) := by
  intro u hu
  simp only [List.mem_append, List.mem_singleton] at hu
  rcases hu with hu | hu
  · exact h u hu
  · exact absurd hu.symm (he u)

theorem deadline_snoc_quiet (startTime : Nat) (tr : List Event) (e : Event)
    (h : DeadlineRespected startTime tr) (he : isStreamIo e = false) :
    DeadlineRespected startTime (tr ++ [e]) := by
  unfold DeadlineRespected at h ⊢
  rw [List.pairwise_append]
  refine ⟨h, List.pairwise_singleton _ _, ?_⟩
  intro a _ b hb _
  rw [List.mem_singleton] at hb
  rw [hb]
  exact he

theorem deadline_snoc_early (startTime : Nat) (tr : List Event) (e : Event)
    (h : DeadlineRespected startTime tr) (hall : ∀ a ∈ tr, isLate startTime a = false) :
    DeadlineRespected startTime (tr ++ [e]) := by
  unfold DeadlineRespected at h ⊢
  rw [List.pairwise_append]
  refine ⟨h, List.pairwise_singleton _ _, ?_⟩
  intro a ha b _ hlate
  rw [hall a ha] at hlate
  exact absurd hlate (by decide)

/-- When the reading that bounds the trace is still before the deadline, so is every
reading recorded in the trace. -/
theorem all_early (startTime bound : Nat) (tr : List Event)
    (h : ReadingsWithin startTime bound tr) (hb : bound < ULONG_MOD)
    (he : elapsed bound startTime < 5000) :
    ∀ a ∈ tr, isLate startTime a = false := by
  intro a ha
  cases a with
  | millis t =>
    obtain ⟨h1, h2⟩ := h t ha
    have e1 := elapsed_of_le t startTime h1 (by omega)
    have e2 := elapsed_of_le bound startTime (by omega) hb
    simp only [isLate, decide_eq_false_iff_not, not_le]
    omega
  | _ => rfl

theorem yieldCheck_safe {σ : Type} (env : PlayEnv σ) (startTime : Nat) (s : Stream σ)
    (hmono : ∀ i j, i ≤ j → millis env i ≤ millis env j)
    (hstart : startTime = millis env 0)
    (hd : DeadlineRespected startTime s.trace)
    (hr : ReadingsWithin startTime (millis env s.clk) s.trace) :
    DeadlineRespected startTime (yieldCheck env startTime s).trace ∧
    ReadingsWithin startTime (millis env (yieldCheck env startTime s).clk)
      (yieldCheck env startTime s).trace := by
  rw [yieldCheck_clk, yieldCheck_trace]
  have h0 : startTime ≤ millis env s.clk := hstart ▸ hmono 0 s.clk (Nat.zero_le _)
  have h1 : millis env s.clk ≤ millis env (s.clk + 1) := hmono _ _ (Nat.le_succ _)
  have d1 := deadline_snoc_quiet startTime s.trace (Event.millis (millis env s.clk)) hd rfl
  have r1 := readings_snoc_millis startTime (millis env (s.clk + 1)) (millis env s.clk)
    s.trace (readings_weaken _ _ _ _ h1 hr) h0 h1
  split
  · have d2 := deadline_snoc_quiet startTime _ Event.yield d1 rfl
    have r2 := readings_snoc_other startTime _ _ Event.yield r1 (fun t => by simp)
    simp only [List.append_assoc, List.singleton_append] at d2 r2
    exact ⟨d2, r2⟩
  · exact ⟨d1, r1⟩

theorem streamStep_safe {σ : Type} (env : PlayEnv σ) (startTime : Nat) (s : Stream σ)
    (hmono : ∀ i j, i ≤ j → millis env i ≤ millis env j)
    (hstart : startTime = millis env 0)
    (hd : DeadlineRespected startTime s.trace)
    (hr : ReadingsWithin startTime (millis env s.clk) s.trace) :
    DeadlineRespected startTime (streamStep env startTime s).1.trace ∧
    ReadingsWithin startTime (millis env (streamStep env startTime s).1.clk)
      (streamStep env startTime s).1.trace := by
  have h0 : startTime ≤ millis env s.clk := hstart ▸ hmono 0 s.clk (Nat.zero_le _)
  have h1 : millis env s.clk ≤ millis env (s.clk + 1) := hmono _ _ (Nat.le_succ _)
  have dC := deadline_snoc_quiet startTime s.trace (Event.millis (millis env s.clk)) hd rfl
  have rC := readings_snoc_millis startTime (millis env (s.clk + 1)) (millis env s.clk)
    s.trace (readings_weaken _ _ _ _ h1 hr) h0 h1
  by_cases ha : env.source.available s.file = true
  · by_cases he : elapsed (millis env s.clk) startTime < 5000
    · have early0 := all_early startTime (millis env s.clk) s.trace hr (millis_lt env _) he
      have early1 : ∀ a ∈ s.trace ++ [Event.millis (millis env s.clk)],
          isLate startTime a = false := by
        intro a ha1
        rw [List.mem_append, List.mem_singleton] at ha1
        rcases ha1 with h | h
        · exact early0 a h
        · rw [h]
          simp only [isLate, decide_eq_false_iff_not, not_le]
          exact he
      have dR := deadline_snoc_early startTime _
        (Event.read (env.source.read s.file 4096).1) dC early1
      have rR := readings_snoc_other startTime _ _
        (Event.read (env.source.read s.file 4096).1) rC (fun t => by simp)
      have early2 : ∀ a ∈ (afterRead env s).trace, isLate startTime a = false := by
        intro a ha1
        simp only [afterRead, List.mem_append, List.mem_singleton] at ha1
        rcases ha1 with h | h
        · exact early1 a (by simpa using h)
        · rw [h]
          rfl
      by_cases hn : 0 < (env.source.read s.file 4096).1
      · have dW := deadline_snoc_early startTime (afterRead env s).trace
          (Event.i2sWrite (alignChunk (env.source.read s.file 4096).1).toNat
            ((afterRead env s).buffer.take
              (alignChunk (env.source.read s.file 4096).1).toNat)) dR early2
        have rW := readings_snoc_other startTime _ _
          (Event.i2sWrite (alignChunk (env.source.read s.file 4096).1).toNat
            ((afterRead env s).buffer.take
              (alignChunk (env.source.read s.file 4096).1).toNat)) rR (fun t => by simp)
        by_cases hw : env.writeResult s.wr = ESP_OK
        · rw [streamStep_ok env startTime s ha he hn hw]
          exact yieldCheck_safe env startTime (afterWrite env s) hmono hstart dW rW
        · rw [streamStep_fail env startTime s ha he hn hw]
          exact ⟨deadline_snoc_quiet startTime _ _ dW rfl,
            readings_snoc_other startTime _ _ _ rW (fun t => by simp)⟩
      · rw [streamStep_skip env startTime s ha he hn]
        exact yieldCheck_safe env startTime (afterRead env s) hmono hstart dR rR
    · rw [streamStep_deadline env startTime s ha he]
      exact ⟨dC, rC⟩
  · rw [streamStep_exhausted env startTime s (by simpa using ha)]
    exact ⟨hd, hr⟩

theorem streamLoop_safe {σ : Type} (env : PlayEnv σ) (startTime : Nat)
    (hmono : ∀ i j, i ≤ j → millis env i ≤ millis env j)
    (hstart : startTime = millis env 0) :
    ∀ (fuel : Nat) (s : Stream σ), DeadlineRespected startTime s.trace →
      ReadingsWithin startTime (millis env s.clk) s.trace →
      DeadlineRespected startTime (streamLoop env startTime fuel s).1.trace := by
  intro fuel
  induction fuel with
  | zero =>
    intro s hd _
    exact hd
  | succ n ih =>
    intro s hd hr
    obtain ⟨d1, r1⟩ := streamStep_safe env startTime s hmono hstart hd hr
    unfold streamLoop
    split
    · rename_i s1 e heq
      rw [heq] at d1
      exact d1
    · rename_i s1 heq
      rw [heq] at d1 r1
      exact ih s1 d1 r1

theorem yieldCheck_reads {σ : Type} (env : PlayEnv σ) (startTime : Nat) (s : Stream σ) :
    (yieldCheck env startTime s).trace.countP isRead = s.trace.countP isRead := by
  rw [yieldCheck_trace]
  split <;> simp [List.countP_append, List.countP_cons, isRead]

theorem clock_progress {σ : Type} (env : PlayEnv σ)
    (hmono : ∀ i j, i ≤ j → millis env i ≤ millis env j)
    (hadv : ∀ i, i < 5000 → millis env (2 * i + 1) + 1 ≤ millis env (2 * i + 3)) :
    ∀ i, i ≤ 5000 → millis env 0 + i ≤ millis env (2 * i + 1) := by
  intro i
  induction i with
  | zero =>
    intro _
    exact hmono 0 1 (by decide)
  | succ n ih =>
    intro hn
    have h1 := ih (by omega)
    have h2 := hadv n (by omega)
    have e : 2 * (n + 1) + 1 = 2 * n + 3 := by ring
    rw [e]
    omega

theorem streamLoop_terminates {σ : Type} (env : PlayEnv σ) (startTime : Nat)
    (hstart : startTime = millis env 0)
    (hmono : ∀ i j, i ≤ j → millis env i ≤ millis env j)
    (hadv : ∀ i, i < 5000 → millis env (2 * i + 1) + 1 ≤ millis env (2 * i + 3)) :
    ∀ (fuel i : Nat) (s : Stream σ), s.clk = 2 * i + 1 → s.trace.countP isRead = i →
      i ≤ 5000 → 5001 ≤ i + fuel →
      ∃ s1 e, streamLoop env startTime fuel s = (s1, some e) ∧
        s1.trace.countP isRead ≤ 5000 := by
  intro fuel
  induction fuel with
  | zero =>
    intro i s _ _ h1 h2
    omega
  | succ n ih =>
    intro i s hclk hcnt hi hfuel
    unfold streamLoop
    by_cases ha : env.source.available s.file = true
    · by_cases he : elapsed (millis env s.clk) startTime < 5000
      · have hprog := clock_progress env hmono hadv i hi
        rw [← hclk, ← hstart] at hprog
        have hel := elapsed_of_le (millis env s.clk) startTime (by omega) (millis_lt env _)
        have hi2 : i < 5000 := by omega
        have cntR : (afterRead env s).trace.countP isRead = i + 1 := by
          simp [afterRead, List.countP_append, List.countP_cons, isRead, hcnt]
        have cntW : (afterWrite env s).trace.countP isRead = i + 1 := by
          simp only [afterWrite, List.countP_append, cntR]
          simp [List.countP_cons, isRead]
        by_cases hn : 0 < (env.source.read s.file 4096).1
        · by_cases hw : env.writeResult s.wr = ESP_OK
          · rw [streamStep_ok env startTime s ha he hn hw]
            simp only
            apply ih (i + 1)
            · rw [yieldCheck_clk]
              simp only [afterWrite, afterRead]
              omega
            · rw [yieldCheck_reads]
              exact cntW
            · omega
            · omega
          · rw [streamStep_fail env startTime s ha he hn hw]
            simp only
            refine ⟨_, _, rfl, ?_⟩
            simp only [List.countP_append, cntW]
            simp [List.countP_cons, isRead]
            omega
        · rw [streamStep_skip env startTime s ha he hn]
          simp only
          apply ih (i + 1)
          · rw [yieldCheck_clk]
            simp only [afterRead]
            omega
          · rw [yieldCheck_reads]
            exact cntR
          · omega
          · omega
      · rw [streamStep_deadline env startTime s ha he]
        simp only
        refine ⟨_, _, rfl, ?_⟩
        simp [afterCondition, List.countP_append, List.countP_cons, isRead, hcnt]
        omega
    · rw [streamStep_exhausted env startTime s (by simpa using ha)]
      simp only
      exact ⟨_, _, rfl, by omega⟩

/-- C4: under a non-decreasing millisecond clock and for every source, however long the
streaming loop has run, no read and no streaming write follows a clock reading that
shows 5000 ms or more elapsed since the session start.  If moreover the reading at the
loop condition advances by at least 1 ms from one iteration to the next, then with
fuel for 5001 evaluations of the condition the loop is left, after at most 5000
iterations (one read each), and a session that opened its source and got its buffer
returns with the drain sequence following the loop events.

Reading 0 of the session is `startTime`; iteration `i` (from 0) reads the clock twice,
reading `2 * i + 1` in the loop condition and reading `2 * i + 2` in the yield check. -/
theorem C4_playback_deadline {σ : Type} (env : PlayEnv σ) (f : σ) (buf : List Nat)
    (st : State)
    (hmono : ∀ i j, i ≤ j → millis env i ≤ millis env j) :
    (∀ fuel, DeadlineRespected (millis env 0)
      (streamLoop env (millis env 0) fuel (streamStart env f buf)).1.trace) ∧
    ((∀ i, i < 5000 → millis env (2 * i + 1) + 1 ≤ millis env (2 * i + 3)) →
      ∀ fuel, 5001 ≤ fuel →
        ∃ s e, streamLoop env (millis env 0) fuel (streamStart env f buf) = (s, some e) ∧
          s.trace.countP isRead ≤ 5000 ∧
          (st.i2sInitialized = true → st.soundPlayedFlag = false →
            env.file = some f → env.buffer = some buf →
            ∃ st1, playWAVFile fuel env st =
              some (st1, sessionPrologue (millis env 0) ++ s.trace ++ drainSequence ++
                sessionEpilogue))) := by
  constructor
  · intro fuel
    apply streamLoop_safe env (millis env 0) hmono rfl fuel
    · exact List.Pairwise.nil
    · intro t ht
      simp [streamStart] at ht
  · intro hadv fuel hfuel
    obtain ⟨s, e, hs, hc⟩ := streamLoop_terminates env (millis env 0) rfl hmono hadv fuel 0
      (streamStart env f buf) rfl rfl (by omega) (by omega)
    refine ⟨s, e, hs, hc, fun h1 h2 h3 h4 => ?_⟩
    exact ⟨_, playWAVFile_after_loop fuel env st f buf s e h1 h2 h3 h4 hs⟩

/-- Witness of C4: a never-ending source under a clock advancing 1 ms per reading. -/
theorem C4_playback_deadline_witness :
    (∀ i j, i ≤ j → millis steadyEnv i ≤ millis steadyEnv j) ∧
    (∀ i, i < 5000 → millis steadyEnv (2 * i + 1) + 1 ≤ millis steadyEnv (2 * i + 3)) ∧
    (∀ fuel, DeadlineRespected (millis steadyEnv 0)
      (streamLoop steadyEnv (millis steadyEnv 0) fuel (streamStart steadyEnv () [])).1.trace) ∧
    ∃ s e, streamLoop steadyEnv (millis steadyEnv 0) 5001 (streamStart steadyEnv () []) =
        (s, some e) ∧
      s.trace.countP isRead ≤ 5000 ∧
      (readyState.i2sInitialized = true → readyState.soundPlayedFlag = false →
        steadyEnv.file = some () → steadyEnv.buffer = some [] →
        ∃ st1, playWAVFile 5001 steadyEnv readyState =
          some (st1, sessionPrologue (millis steadyEnv 0) ++ s.trace ++ drainSequence ++
            sessionEpilogue)) := by
  have hm : ∀ i j, i ≤ j → millis steadyEnv i ≤ millis steadyEnv j := by
    intro i j h
    simp only [millis, steadyEnv, ULONG_MOD]
    omega
  have ha : ∀ i, i < 5000 →
      millis steadyEnv (2 * i + 1) + 1 ≤ millis steadyEnv (2 * i + 3) := by
    intro i h
    simp only [millis, steadyEnv, ULONG_MOD]
    omega
  exact ⟨hm, ha, (C4_playback_deadline steadyEnv () [] readyState hm).1,
    (C4_playback_deadline steadyEnv () [] readyState hm).2 ha 5001 (le_refl _)⟩

/-- A never-ending source under a clock that jumps 3000 ms per reading: one iteration
runs, the next evaluation of the condition leaves the loop at the deadline. -/
theorem endless_source_hits_deadline :
    (streamLoop endlessEnv (millis endlessEnv 0) 2 (streamStart endlessEnv () [])).2 =
      some LoopExit.deadline ∧
    (streamLoop endlessEnv (millis endlessEnv 0) 2 (streamStart endlessEnv () [])).1.trace =
      endlessTrace := by
  decide

/-! ## C10: the streamed payload -/

theorem writtenBytes_append (a b : List Event) :
    writtenBytes (a ++ b) = writtenBytes a ++ writtenBytes b := by
  induction a with
  | nil => rfl
  | cons e rest ih =>
    cases e <;> simp [writtenBytes, ih]

theorem yieldCheck_written {σ : Type} (env : PlayEnv σ) (startTime : Nat) (s : Stream σ) :
    writtenBytes (yieldCheck env startTime s).trace = writtenBytes s.trace := by
  rw [yieldCheck_trace, writtenBytes_append]
  split <;> simp [writtenBytes]

theorem alignChunk_natCast (n : Nat) : (alignChunk (n : Int)).toNat = n / 4 * 4 := by
  unfold alignChunk
  rw [Int.tdiv_eq_ediv (by omega) (by decide)]
  omega

/-- The streaming loop on an SD file, from any position: with every write succeeding
and the deadline never reached, the loop ends by exhaustion and has written the whole
frames of the remaining bytes. -/
theorem sdFile_stream (env : PlayEnv WavFile) (startTime : Nat) (bytes : List Nat)
    (hsrc : env.source = sdFile)
    (hwrite : ∀ k, env.writeResult k = ESP_OK)
    (hclock : ∀ k, elapsed (millis env k) startTime < 5000) :
    ∀ (fuel : Nat) (s : Stream WavFile), s.file.bytes = bytes → s.file.pos ≤ bytes.length →
      (bytes.length - s.file.pos + 4095) / 4096 + 1 ≤ fuel →
      ∃ s1, streamLoop env startTime fuel s = (s1, some LoopExit.exhausted) ∧
        writtenBytes s1.trace = writtenBytes s.trace ++
          (bytes.drop s.file.pos).take (4 * ((bytes.length - s.file.pos) / 4)) := by
  intro fuel
  induction fuel with
  | zero =>
    intro s _ _ hf
    omega
  | succ n ih =>
    intro s hb hp hf
    unfold streamLoop
    by_cases hlt : s.file.pos < bytes.length
    · have ha : env.source.available s.file = true := by
        rw [hsrc]
        simp [sdFile, hb, hlt]
      have hread : env.source.read s.file 4096 =
          (((((bytes.drop s.file.pos).take 4096).length : Nat) : Int),
            (bytes.drop s.file.pos).take 4096,
            ({ s.file with
                pos := s.file.pos + ((bytes.drop s.file.pos).take 4096).length } : WavFile)) := by
        rw [hsrc]
        simp [sdFile, hb]
      have hlenc : ((bytes.drop s.file.pos).take 4096).length =
          min 4096 (bytes.length - s.file.pos) := by
        rw [List.length_take, List.length_drop]
      have hn : 0 < (env.source.read s.file 4096).1 := by
        rw [hread]
        simp only
        omega
      rw [streamStep_ok env startTime s ha (hclock _) hn (hwrite _)]
      simp only
      have hfile : (yieldCheck env startTime (afterWrite env s)).file =
          { s.file with pos := s.file.pos + ((bytes.drop s.file.pos).take 4096).length } := by
        rw [yieldCheck_file]
        simp only [afterWrite, afterRead, hread]
      have hwr : writtenBytes (yieldCheck env startTime (afterWrite env s)).trace =
          writtenBytes s.trace ++ (bytes.drop s.file.pos).take
            (min 4096 (bytes.length - s.file.pos) / 4 * 4) := by
        rw [yieldCheck_written]
        simp only [afterWrite, afterRead, hread, writtenBytes_append, writtenBytes,
          List.append_nil, List.nil_append, alignChunk_natCast]
        rw [List.take_append_of_le_length (by omega), List.take_take, hlenc]
        congr 2
        omega
      obtain ⟨s1, h1, h2⟩ := ih (yieldCheck env startTime (afterWrite env s))
        (by rw [hfile]; exact hb)
        (by rw [hfile]; simp only; omega)
        (by rw [hfile]; simp only; omega)
      refine ⟨s1, h1, ?_⟩
      rw [h2, hwr, hfile, List.append_assoc]
      congr 1
      simp only [hlenc]
      by_cases hfull : 4096 ≤ bytes.length - s.file.pos
      · have e1 : min 4096 (bytes.length - s.file.pos) = 4096 := by omega
        rw [e1]
        have e2 : 4 * ((bytes.length - s.file.pos) / 4) =
            4096 / 4 * 4 + 4 * ((bytes.length - (s.file.pos + 4096)) / 4) := by omega
        rw [e2, List.take_add, List.drop_drop]
      · have e1 : min 4096 (bytes.length - s.file.pos) = bytes.length - s.file.pos := by
          omega
        rw [e1]
        have e2 : 4 * ((bytes.length - (s.file.pos + (bytes.length - s.file.pos))) / 4) = 0 := by
          omega
        have e3 : (bytes.length - s.file.pos) / 4 * 4 = 4 * ((bytes.length - s.file.pos) / 4) := by
          omega
        rw [e2, e3]
        simp
    · have ha : env.source.available s.file = false := by
        rw [hsrc]
        simp [sdFile, hb]
        omega
      rw [streamStep_exhausted env startTime s ha]
      simp only
      refine ⟨s, rfl, ?_⟩
      have e : 4 * ((bytes.length - s.file.pos) / 4) = 0 := by omega
      rw [e]
      simp

/-- C10: for every file of length `L ≥ 44` on the SD card (reads deliver
`min(4096, bytes remaining)` bytes), when no streaming write fails and no clock reading
reaches the 5000 ms deadline, the streaming loop entered by `playWAVFile` ends by
exhaustion, and the concatenation in order of the chunks it wrote equals the bytes of
the file from offset 44 up to (not including) offset `44 + 4 * ((L - 44) / 4)`. -/
theorem C10_streamed_payload (fuel : Nat) (env : PlayEnv WavFile) (file : WavFile)
    (buf : List Nat)
    (hsrc : env.source = sdFile)
    (hlen : 44 ≤ file.bytes.length)
    (hwrite : ∀ k, env.writeResult k = ESP_OK)
    (hclock : ∀ k, elapsed (millis env k) (millis env 0) < 5000)
    (hfuel : (file.bytes.length - 44) / 4096 + 2 ≤ fuel) :
    ∃ s, streamLoop env (millis env 0) fuel (streamStart env file buf) =
        (s, some LoopExit.exhausted) ∧
      writtenBytes s.trace =
        (file.bytes.drop 44).take (4 * ((file.bytes.length - 44) / 4)) := by
  have hs : (streamStart env file buf).file = { file with pos := 44 } := by
    simp only [streamStart, hsrc, sdFile]
  obtain ⟨s, h1, h2⟩ := sdFile_stream env (millis env 0) file.bytes hsrc hwrite hclock fuel
    (streamStart env file buf) (by rw [hs]) (by rw [hs]; exact hlen)
    (by rw [hs]; simp only; omega)
  refine ⟨s, h1, ?_⟩
  rw [h2, hs]
  simp [streamStart, writtenBytes]

/-- Witness of C10: the 53-byte file `tinyWav`, of which the 8 bytes at offsets 44-51
are written. -/
theorem C10_streamed_payload_witness :
    tinyEnv.source = sdFile ∧ 44 ≤ tinyWav.bytes.length ∧
    (∀ k, tinyEnv.writeResult k = ESP_OK) ∧
    (∀ k, elapsed (millis tinyEnv k) (millis tinyEnv 0) < 5000) ∧
    (tinyWav.bytes.length - 44) / 4096 + 2 ≤ 2 ∧
    ∃ s, streamLoop tinyEnv (millis tinyEnv 0) 2
        (streamStart tinyEnv tinyWav (List.replicate 4096 0)) =
        (s, some LoopExit.exhausted) ∧
      writtenBytes s.trace =
        (tinyWav.bytes.drop 44).take (4 * ((tinyWav.bytes.length - 44) / 4)) := by
  have hc : ∀ k, elapsed (millis tinyEnv k) (millis tinyEnv 0) < 5000 := by
    have hmil : ∀ k, millis tinyEnv k = 1000 + 3 * min k 1000 := by
      intro k
      simp only [millis, tinyEnv, ULONG_MOD]
      omega
    intro k
    rw [hmil, hmil, elapsed_of_le _ _ (by omega) (by unfold ULONG_MOD; omega)]
    omega
  exact ⟨rfl, by decide, fun _ => rfl, hc, by decide,
    C10_streamed_payload 2 tinyEnv tinyWav (List.replicate 4096 0) rfl (by decide)
      (fun _ => rfl) hc (by decide)⟩

/-- The payload written on `tinyEnv`, evaluated: bytes 44 to 51, the odd byte 52 dropped. -/
theorem tiny_payload :
    writtenBytes tinyTrace = [44, 45, 46, 47, 48, 49, 50, 51] ∧
    (tinyWav.bytes.drop 44).take (4 * ((tinyWav.bytes.length - 44) / 4)) =
      [44, 45, 46, 47, 48, 49, 50, 51] := by
  decide

/-! ## Frames and the playback latch -/

theorem renderFrame_noedge {σ : Type} (fuel : Nat) (fr : Frame σ) (st : State)
    (h : fr.moneyMode = false ∨ st.previousMoney = true ∨ st.soundPlayedFlag = true) :
    renderFrame fuel fr st =
      some (finishFrame { st with moneyMode := fr.moneyMode },
        [Event.pushSprite (drawOps fr.moneyMode fr.offsetX fr.offsetY fr.closed)]) := by
  unfold renderFrame drawEyes
  rcases h with h | h | h <;> simp [h]

theorem renderFrame_edge {σ : Type} (fuel : Nat) (fr : Frame σ) (st : State)
    (hm : fr.moneyMode = true) (hp : st.previousMoney = false)
    (hf : st.soundPlayedFlag = false) :
    renderFrame fuel fr st =
      (playWAVFile fuel fr.env { st with moneyMode := true }).map fun p =>
        (finishFrame p.1,
          Event.pushSprite (drawOps true fr.offsetX fr.offsetY fr.closed) :: p.2) := by
  unfold renderFrame drawEyes
  simp [hm, hp, hf]

theorem renderFrames_length {σ : Type} (fuel : Nat) (fs : List (Frame σ)) :
    ∀ (st : State) (res : List (State × List Event)),
      renderFrames fuel fs st = some res → res.length = fs.length := by
  induction fs with
  | nil =>
    intro st res h
    simp only [renderFrames, Option.some.injEq] at h
    rw [← h]
    rfl
  | cons fr rest ih =>
    intro st res h
    simp only [renderFrames, Option.bind_eq_some, Option.map_eq_some'] at h
    obtain ⟨r, _, rs, hrs, rfl⟩ := h
    simp [ih r.1 rs hrs]

theorem renderFrames_append {σ : Type} (fuel : Nat) (a b : List (Frame σ)) :
    ∀ (st : State) (res : List (State × List Event)),
      renderFrames fuel (a ++ b) st = some res →
      ∃ ra rb, renderFrames fuel a st = some ra ∧
        renderFrames fuel b (endState st ra) = some rb ∧ res = ra ++ rb := by
  induction a with
  | nil =>
    intro st res h
    exact ⟨[], res, rfl, h, rfl⟩
  | cons fr rest ih =>
    intro st res h
    simp only [List.cons_append, renderFrames, Option.bind_eq_some, Option.map_eq_some'] at h
    obtain ⟨r, hr, rs, hrs, rfl⟩ := h
    obtain ⟨ra, rb, h1, h2, h3⟩ := ih r.1 rs hrs
    refine ⟨r :: ra, rb, ?_, h2, ?_⟩
    · simp [renderFrames, hr, h1]
    · rw [h3]
      rfl

theorem finishFrame_fields (st : State) :
    (finishFrame st).previousMoney = st.moneyMode ∧
    (finishFrame st).i2sInitialized = st.i2sInitialized ∧
    (finishFrame st).moneyMode = st.moneyMode ∧
    (finishFrame st).soundPlayedFlag =
      (if !st.moneyMode && st.previousMoney then false else st.soundPlayedFlag) := by
  unfold finishFrame
  split <;> simp_all

/-- A frame that is not a mode-entry edge completes without calling `playWAVFile`. -/
theorem renderFrame_noedge_fields {σ : Type} (fuel : Nat) (fr : Frame σ) (st : State)
    (h : fr.moneyMode = false ∨ st.previousMoney = true ∨ st.soundPlayedFlag = true) :
    ∃ r, renderFrame fuel fr st = some r ∧
      r.1.previousMoney = fr.moneyMode ∧ r.1.i2sInitialized = st.i2sInitialized ∧
      r.1.soundPlayedFlag =
        (if !fr.moneyMode && st.previousMoney then false else st.soundPlayedFlag) ∧
      r.2 = [Event.pushSprite (drawOps fr.moneyMode fr.offsetX fr.offsetY fr.closed)] := by
  obtain ⟨f1, f2, _, f4⟩ := finishFrame_fields { st with moneyMode := fr.moneyMode }
  exact ⟨_, renderFrame_noedge fuel fr st h, f1, f2, f4, rfl⟩

theorem endState_append (st : State) (ra rb : List (State × List Event)) :
    endState st (ra ++ rb) = endState (endState st ra) rb := by
  induction ra generalizing st with
  | nil => rfl
  | cons a b ih => exact ih a.1

theorem renderFrames_join {σ : Type} (fuel : Nat) (a b : List (Frame σ)) :
    ∀ (st : State) (ra rb : List (State × List Event)),
      renderFrames fuel a st = some ra → renderFrames fuel b (endState st ra) = some rb →
      renderFrames fuel (a ++ b) st = some (ra ++ rb) := by
  induction a with
  | nil =>
    intro st ra rb h1 h2
    simp only [renderFrames, Option.some.injEq] at h1
    subst h1
    exact h2
  | cons fr rest ih =>
    intro st ra rb h1 h2
    simp only [renderFrames, Option.bind_eq_some, Option.map_eq_some'] at h1
    obtain ⟨r, hr, rs, hrs, rfl⟩ := h1
    have h3 := ih r.1 rs rb hrs h2
    simp [renderFrames, hr, h3]

/-- Frames of one episode after its first: `previousMoney` is already true, so
`playWAVFile` is not called, whatever the environment. -/
theorem renderFrames_inside_episode {σ : Type} (fuel : Nat) (fs : List (Frame σ)) :
    ∀ (st : State), (∀ fr ∈ fs, fr.moneyMode = true) → st.previousMoney = true →
      ∃ rs, renderFrames fuel fs st = some rs ∧
        (∀ q ∈ rs, q.1.soundPlayedFlag = st.soundPlayedFlag ∧ q.1.previousMoney = true ∧
          ∃ ops, q.2 = [Event.pushSprite ops]) ∧
        (endState st rs).soundPlayedFlag = st.soundPlayedFlag ∧
        (endState st rs).previousMoney = true ∧
        (endState st rs).i2sInitialized = st.i2sInitialized := by
  induction fs with
  | nil =>
    intro st _ hp
    exact ⟨[], rfl, by simp, rfl, hp, rfl⟩
  | cons fr rest ih =>
    intro st hm hp
    have hfr := hm fr (List.mem_cons_self _ _)
    obtain ⟨r, hr, f1, f2, f4, f5⟩ :=
      renderFrame_noedge_fields fuel fr st (Or.inr (Or.inl hp))
    simp only [hfr, Bool.not_true, Bool.false_and, Bool.false_eq_true, if_false] at f1 f4
    obtain ⟨rs, h1, h2, h3, h4, h5⟩ := ih r.1
      (fun x hx => hm x (List.mem_cons_of_mem _ hx)) f1
    refine ⟨r :: rs, ?_, ?_, ?_, ?_, ?_⟩
    · simp [renderFrames, hr, h1]
    · intro q hq
      rcases List.mem_cons.mp hq with h | h
      · rw [h]
        exact ⟨f4, f1, _, f5⟩
      · obtain ⟨a, b, c⟩ := h2 q h
        exact ⟨a.trans f4, b, c⟩
    · simp only [endState]
      exact h3.trans f4
    · simp only [endState]
      exact h4
    · simp only [endState]
      exact h5.trans f2

/-- Frames rendered in Normal mode: `playWAVFile` is not called, and after the first of
them the latch and the edge memory are both clear. -/
theorem renderFrames_normal {σ : Type} (fuel : Nat) (fs : List (Frame σ)) :
    ∀ (st : State), (∀ fr ∈ fs, fr.moneyMode = false) →
      (st.previousMoney = false → st.soundPlayedFlag = false) →
      ∃ rs, renderFrames fuel fs st = some rs ∧
        (∀ q ∈ rs, q.1.soundPlayedFlag = false ∧ q.1.previousMoney = false ∧
          ∃ ops, q.2 = [Event.pushSprite ops]) ∧
        (fs ≠ [] → (endState st rs).soundPlayedFlag = false ∧
          (endState st rs).previousMoney = false) ∧
        (endState st rs).i2sInitialized = st.i2sInitialized := by
  induction fs with
  | nil =>
    intro st _ _
    exact ⟨[], rfl, by simp, by simp, rfl⟩
  | cons fr rest ih =>
    intro st hm hk
    have hfr := hm fr (List.mem_cons_self _ _)
    obtain ⟨r, hr, f1, f2, f4, f5⟩ := renderFrame_noedge_fields fuel fr st (Or.inl hfr)
    simp only [hfr, Bool.not_false, Bool.true_and] at f1 f4
    have f6 : r.1.soundPlayedFlag = false := by
      rw [f4]
      cases hp : st.previousMoney
      · simpa using hk hp
      · simp
    obtain ⟨rs, h1, h2, h3, h4⟩ := ih r.1
      (fun x hx => hm x (List.mem_cons_of_mem _ hx)) (fun _ => f6)
    refine ⟨r :: rs, ?_, ?_, ?_, ?_⟩
    · simp [renderFrames, hr, h1]
    · intro q hq
      rcases List.mem_cons.mp hq with h | h
      · rw [h]
        exact ⟨f6, f1, _, f5⟩
      · exact h2 q h
    · intro _
      simp only [endState]
      cases rest with
      | nil =>
        simp only [renderFrames, Option.some.injEq] at h1
        rw [← h1]
        exact ⟨f6, f1⟩
      | cons a b => exact h3 (by simp)
    · simp only [endState]
      exact h4.trans f2

/-- What `playWAVFile` does once past its guard: it attempts `SD.open`, and sets the
latch exactly when the file opened and the buffer was allocated. -/
theorem playWAVFile_attempt {σ : Type} (fuel : Nat) (env : PlayEnv σ) (st : State)
    (p : State × List Event)
    (hinit : st.i2sInitialized = true) (hflag : st.soundPlayedFlag = false)
    (hp : playWAVFile fuel env st = some p) :
    Event.sdOpen env.file.isSome ∈ p.2 ∧
    p.1 = { st with soundPlayedFlag := env.file.isSome && env.buffer.isSome } ∧
    (env.file.isSome = true → env.buffer.isSome = true →
      ∃ s, p.2 = sessionPrologue (millis env 0) ++ s.trace ++ drainSequence ++
          sessionEpilogue ∧
        ∃ f buf fl e, streamLoop env (millis env 0) fl (streamStart env f buf) =
          (s, some e)) := by
  unfold playWAVFile at hp
  simp only [hinit, hflag, Bool.not_true, Bool.or_self, Bool.false_eq_true, if_false] at hp
  cases hf : env.file with
  | none =>
    rw [hf] at hp
    simp only [Option.some.injEq] at hp
    rw [← hp]
    refine ⟨by simp, ?_, by simp⟩
    cases st
    simp_all
  | some f =>
    rw [hf] at hp
    simp only at hp
    cases hb : env.buffer with
    | none =>
      rw [hb] at hp
      simp only [Option.some.injEq] at hp
      rw [← hp]
      refine ⟨by simp, ?_, by simp⟩
      cases st
      simp_all
    | some buf =>
      rw [hb] at hp
      simp only at hp
      split at hp
      · exact absurd hp (by simp)
      · rename_i e he
        simp only [Option.some.injEq] at hp
        rw [← hp]
        refine ⟨by simp [sessionPrologue], by simp [hinit],
          fun _ _ => ⟨_, rfl, f, buf, fuel, e, ?_⟩⟩
        rw [← he]
        rfl

/-! ## C5: source unavailable -/

/-- C5: when the mode-entry edge (`moneyMode` true, `previousMoney` false, latch clear,
channel initialised) is rendered while the WAV file cannot be opened, the frame
completes, `playWAVFile` only reports the missing file and performs no hardware write,
`soundPlayedFlag` stays false and `previousMoney` becomes true.  Every later frame of
the same episode, and every Normal frame after it, completes without any open attempt
or write (its only event is the sprite push) whatever its environment, and the latch
stays false.  On the next frame rendered with `moneyMode` true after at least one Normal
frame, `SD.open` is attempted again. -/
theorem C5_source_unavailable {σ : Type} (fuel : Nat) (st : State) (edge : Frame σ)
    (later normals : List (Frame σ)) (next : Frame σ)
    (hinit : st.i2sInitialized = true)
    (hprev : st.previousMoney = false) (hflag : st.soundPlayedFlag = false)
    (hedge : edge.moneyMode = true) (hfile : edge.env.file = none)
    (hlater : ∀ fr ∈ later, fr.moneyMode = true)
    (hnormals : ∀ fr ∈ normals, fr.moneyMode = false) (hne : normals ≠ [])
    (hnext : next.moneyMode = true) :
    ∃ r rs, renderFrame fuel edge st = some r ∧
      r.2 = [Event.pushSprite (drawOps true edge.offsetX edge.offsetY edge.closed),
             Event.sdOpen false, Event.serial Msg.wavNotFound] ∧
      (∀ e ∈ r.2, isHardwareWrite e = false) ∧
      r.1.soundPlayedFlag = false ∧ r.1.previousMoney = true ∧
      renderFrames fuel (later ++ normals) r.1 = some rs ∧
      (∀ q ∈ rs, q.1.soundPlayedFlag = false ∧ ∃ ops, q.2 = [Event.pushSprite ops]) ∧
      (∀ q, renderFrame fuel next (endState r.1 rs) = some q →
        Event.sdOpen next.env.file.isSome ∈ q.2) := by
  have hstep := renderFrame_edge fuel edge st hedge hprev hflag
  have hplay : playWAVFile fuel edge.env { st with moneyMode := true } =
      some ({ st with moneyMode := true },
        [Event.sdOpen false, Event.serial Msg.wavNotFound]) := by
    unfold playWAVFile
    simp [hinit, hflag, hfile]
  rw [hplay] at hstep
  simp only [Option.map_some'] at hstep
  obtain ⟨f1, f2, f3, f4⟩ := finishFrame_fields { st with moneyMode := true }
  simp only [Bool.not_true, Bool.false_and, Bool.false_eq_true, if_false] at f1 f4
  obtain ⟨rs1, a1, a2, a3, a4, a5⟩ := renderFrames_inside_episode fuel later
    (finishFrame { st with moneyMode := true }) hlater f1
  obtain ⟨rs2, b1, b2, b3, b4⟩ := renderFrames_normal fuel normals
    (endState (finishFrame { st with moneyMode := true }) rs1) hnormals
    (fun h => by rw [a4] at h; exact absurd h (by decide))
  have hall := renderFrames_join fuel later normals _ rs1 rs2 a1 b1
  refine ⟨_, rs1 ++ rs2, hstep, rfl, ?_, ?_, f1, hall, ?_, ?_⟩
  · intro e he
    simp only [List.mem_cons, List.mem_singleton, List.not_mem_nil, or_false] at he
    rcases he with h | h | h <;> rw [h] <;> rfl
  · rw [f4]
    exact hflag
  · intro q hq
    rcases List.mem_append.mp hq with h | h
    · obtain ⟨x, _, z⟩ := a2 q h
      exact ⟨by rw [x, f4]; exact hflag, z⟩
    · obtain ⟨x, _, z⟩ := b2 q h
      exact ⟨x, z⟩
  · intro q hq
    simp only at hq
    rw [endState_append] at hq
    obtain ⟨c1, c2⟩ := b3 hne
    have hi : (endState (endState (finishFrame { st with moneyMode := true }) rs1)
        rs2).i2sInitialized = true := by
      rw [b4, a5, f2]
      exact hinit
    generalize endState (endState (finishFrame { st with moneyMode := true }) rs1) rs2 = sE
      at hq c1 c2 hi
    rw [renderFrame_edge fuel next sE hnext c2 c1] at hq
    simp only [Option.map_eq_some'] at hq
    obtain ⟨p, hp, rfl⟩ := hq
    obtain ⟨k1, _, _⟩ :=
      playWAVFile_attempt fuel next.env { sE with moneyMode := true } p hi c1 hp
    exact List.mem_cons_of_mem _ k1

/-- Witness of C5: an edge without file, a blink frame in the same episode with the
file back, one Normal frame, and the next edge. -/
theorem C5_source_unavailable_witness :
    readyState.i2sInitialized = true ∧ readyState.previousMoney = false ∧
    readyState.soundPlayedFlag = false ∧ noFileFrame.moneyMode = true ∧
    noFileFrame.env.file = none ∧
    (∀ fr ∈ [specialBlinkFrame], fr.moneyMode = true) ∧
    (∀ fr ∈ [normalFrame], fr.moneyMode = false) ∧ [normalFrame] ≠ [] ∧
    specialFrame.moneyMode = true ∧
    ∃ r rs, renderFrame 2 noFileFrame readyState = some r ∧
      r.2 = [Event.pushSprite (drawOps true noFileFrame.offsetX noFileFrame.offsetY
               noFileFrame.closed),
             Event.sdOpen false, Event.serial Msg.wavNotFound] ∧
      (∀ e ∈ r.2, isHardwareWrite e = false) ∧
      r.1.soundPlayedFlag = false ∧ r.1.previousMoney = true ∧
      renderFrames 2 ([specialBlinkFrame] ++ [normalFrame]) r.1 = some rs ∧
      (∀ q ∈ rs, q.1.soundPlayedFlag = false ∧ ∃ ops, q.2 = [Event.pushSprite ops]) ∧
      (∀ q, renderFrame 2 specialFrame (endState r.1 rs) = some q →
        Event.sdOpen specialFrame.env.file.isSome ∈ q.2) :=
  ⟨rfl, rfl, rfl, rfl, rfl, by decide, by decide, List.cons_ne_nil _ _, rfl,
    C5_source_unavailable 2 readyState noFileFrame [specialBlinkFrame] [normalFrame]
      specialFrame rfl rfl rfl rfl rfl (by decide) (by decide) (List.cons_ne_nil _ _) rfl⟩

/-- The scenario of the C5 witness, evaluated: no event but sprite pushes until the next
edge, where the clip is opened and played. -/
theorem no_retry_within_episode :
    renderFrames 2 [noFileFrame, specialBlinkFrame, normalFrame, specialFrame] readyState =
      some [(silentState, [Event.pushSprite (drawOps true 0 0 false), Event.sdOpen false,
               Event.serial Msg.wavNotFound]),
            (silentState, [Event.pushSprite (drawOps true 0 0 true)]),
            (readyState, [Event.pushSprite (drawOps false 0 0 false)]),
            (playedState, Event.pushSprite (drawOps true 0 0 false) ::
               (sessionPrologue 1000 ++ tinyTrace ++ drainSequence ++ sessionEpilogue))] := by
  rfl

/-! ## C1: one playback per Special episode -/

theorem playbackStarts_append (a b : List Event) :
    playbackStarts (a ++ b) = playbackStarts a + playbackStarts b := by
  induction a with
  | nil => simp [playbackStarts]
  | cons e rest ih =>
    cases e with
    | serial m =>
      cases m <;> simp [playbackStarts, ih]
      omega
    | _ => simp [playbackStarts, ih]

theorem yieldCheck_starts {σ : Type} (env : PlayEnv σ) (startTime : Nat) (s : Stream σ) :
    playbackStarts (yieldCheck env startTime s).trace = playbackStarts s.trace := by
  rw [yieldCheck_trace, playbackStarts_append]
  split <;> simp [playbackStarts]

theorem streamStep_starts {σ : Type} (env : PlayEnv σ) (startTime : Nat) (s : Stream σ) :
    playbackStarts (streamStep env startTime s).1.trace = playbackStarts s.trace := by
  by_cases ha : env.source.available s.file = true
  · by_cases he : elapsed (millis env s.clk) startTime < 5000
    · by_cases hn : 0 < (env.source.read s.file 4096).1
      · by_cases hw : env.writeResult s.wr = ESP_OK
        · rw [streamStep_ok env startTime s ha he hn hw, yieldCheck_starts]
          simp [afterWrite, afterRead, playbackStarts_append, playbackStarts]
        · rw [streamStep_fail env startTime s ha he hn hw]
          simp [afterWrite, afterRead, playbackStarts_append, playbackStarts]
      · rw [streamStep_skip env startTime s ha he hn, yieldCheck_starts]
        simp [afterRead, playbackStarts_append, playbackStarts]
    · rw [streamStep_deadline env startTime s ha he]
      simp [afterCondition, playbackStarts_append, playbackStarts]
  · rw [streamStep_exhausted env startTime s (by simpa using ha)]

theorem streamLoop_starts {σ : Type} (env : PlayEnv σ) (startTime : Nat) :
    ∀ (fuel : Nat) (s : Stream σ),
      playbackStarts (streamLoop env startTime fuel s).1.trace = playbackStarts s.trace := by
  intro fuel
  induction fuel with
  | zero =>
    intro s
    rfl
  | succ n ih =>
    intro s
    have h := streamStep_starts env startTime s
    unfold streamLoop
    split
    · rename_i s1 e heq
      rw [heq] at h
      exact h
    · rename_i s1 heq
      rw [heq] at h
      rw [ih s1]
      exact h

/-- The mode-entry edge with the channel initialised, the file openable and the buffer
allocated: one playback is announced and the latch is set. -/
theorem renderFrame_edge_played {σ : Type} (fuel : Nat) (fr : Frame σ) (st : State)
    (r : State × List Event)
    (hm : fr.moneyMode = true) (hp : st.previousMoney = false)
    (hf : st.soundPlayedFlag = false) (hinit : st.i2sInitialized = true)
    (hfile : fr.env.file.isSome = true) (hbuf : fr.env.buffer.isSome = true)
    (hr : renderFrame fuel fr st = some r) :
    r.1.soundPlayedFlag = true ∧ r.1.previousMoney = true ∧ r.1.i2sInitialized = true ∧
    playbackStarts r.2 = 1 := by
  rw [renderFrame_edge fuel fr st hm hp hf] at hr
  simp only [Option.map_eq_some'] at hr
  obtain ⟨p, hplay, rfl⟩ := hr
  obtain ⟨_, k2, k3⟩ :=
    playWAVFile_attempt fuel fr.env { st with moneyMode := true } p hinit hf hplay
  obtain ⟨s, hs, f, buf, fl, e, hloop⟩ := k3 hfile hbuf
  have m1 : p.1.moneyMode = true := by rw [k2]
  have m2 : p.1.soundPlayedFlag = true := by
    rw [k2]
    simp [hfile, hbuf]
  have m3 : p.1.i2sInitialized = true := by
    rw [k2]
    exact hinit
  obtain ⟨f1, f2, _, f4⟩ := finishFrame_fields p.1
  simp only [m1, m2, Bool.not_true, Bool.false_and, Bool.false_eq_true, if_false] at f1 f4
  refine ⟨f4, f1, f2.trans m3, ?_⟩
  have h0 := streamLoop_starts fr.env (millis fr.env 0) fl (streamStart fr.env f buf)
  rw [hloop] at h0
  have h1 : playbackStarts s.trace = 0 := h0
  have hpro : playbackStarts (sessionPrologue (millis fr.env 0)) = 1 := rfl
  have hdrain : playbackStarts drainSequence = 0 := rfl
  have hepi : playbackStarts sessionEpilogue = 0 := rfl
  have hcons : ∀ ops l, playbackStarts (Event.pushSprite ops :: l) = playbackStarts l :=
    fun _ _ => rfl
  show playbackStarts (Event.pushSprite _ :: p.2) = 1
  rw [hs, hcons, playbackStarts_append, playbackStarts_append, playbackStarts_append, h1,
    hpro, hdrain, hepi]

/-- Over any frames whatever, the channel flag is untouched and a clear edge memory
implies a clear latch. -/
theorem renderFrames_latch {σ : Type} (fuel : Nat) (fs : List (Frame σ)) :
    ∀ (st : State) (rs : List (State × List Event)),
      renderFrames fuel fs st = some rs →
      (st.previousMoney = false → st.soundPlayedFlag = false) →
      ((endState st rs).previousMoney = false → (endState st rs).soundPlayedFlag = false) ∧
      (endState st rs).i2sInitialized = st.i2sInitialized := by
  induction fs with
  | nil =>
    intro st rs h hk
    simp only [renderFrames, Option.some.injEq] at h
    rw [← h]
    exact ⟨hk, rfl⟩
  | cons fr rest ih =>
    intro st rs h hk
    simp only [renderFrames, Option.bind_eq_some, Option.map_eq_some'] at h
    obtain ⟨r, hr, rs1, hrs, rfl⟩ := h
    have hstep : (r.1.previousMoney = false → r.1.soundPlayedFlag = false) ∧
        r.1.i2sInitialized = st.i2sInitialized := by
      by_cases hedge : fr.moneyMode = true ∧ st.previousMoney = false ∧
          st.soundPlayedFlag = false
      · obtain ⟨e1, e2, e3⟩ := hedge
        rw [renderFrame_edge fuel fr st e1 e2 e3] at hr
        simp only [Option.map_eq_some'] at hr
        obtain ⟨p, hplay, rfl⟩ := hr
        obtain ⟨f1, f2, _, _⟩ := finishFrame_fields p.1
        have m1 : p.1.moneyMode = true := by
          rcases playWAVFile_state fuel fr.env _ p hplay with h1 | h1 <;> rw [h1]
        have m3 : p.1.i2sInitialized = st.i2sInitialized := by
          rcases playWAVFile_state fuel fr.env _ p hplay with h1 | h1 <;> rw [h1]
        refine ⟨fun h => ?_, f2.trans m3⟩
        have h2 : (finishFrame p.1).previousMoney = false := h
        rw [f1, m1] at h2
        exact absurd h2 (by decide)
      · have hno : fr.moneyMode = false ∨ st.previousMoney = true ∨
            st.soundPlayedFlag = true := by
          cases h1 : fr.moneyMode <;> cases h2 : st.previousMoney <;>
            cases h3 : st.soundPlayedFlag <;> simp_all
        obtain ⟨r0, hr0, g1, g2, g4, _⟩ := renderFrame_noedge_fields fuel fr st hno
        rw [hr] at hr0
        simp only [Option.some.injEq] at hr0
        subst hr0
        refine ⟨fun h => ?_, g2⟩
        rw [g4]
        rw [g1] at h
        cases h2 : st.previousMoney
        · simpa [h] using hk h2
        · simp [h]
    have := ih r.1 rs1 hrs hstep.1
    simp only [endState]
    exact ⟨this.1, this.2.trans hstep.2⟩

/-- C1 (amended): for every completed sequence of `drawEyes` frames starting with
`previousMoney` and `soundPlayedFlag` false and the audio channel initialised, and for
every maximal run of consecutive frames rendered with `moneyMode` true (of any length,
blink frames included) during which the WAV file is openable and the 4096-byte chunk
buffer is allocated: a playback is announced exactly once, on the first frame of the
run; `soundPlayedFlag` is true after every frame of the run; and it is false after the
first later frame, which is rendered with `moneyMode` false. -/
theorem C1_one_playback_per_episode {σ : Type} (fuel : Nat) (pre run post : List (Frame σ))
    (st0 : State) (res : List (State × List Event))
    (hprev : st0.previousMoney = false) (hflag : st0.soundPlayedFlag = false)
    (hinit : st0.i2sInitialized = true)
    (hrun : ∀ fr ∈ run, fr.moneyMode = true ∧ fr.env.file.isSome = true ∧
      fr.env.buffer.isSome = true)
    (hne : run ≠ [])
    (hleft : pre = [] ∨ ∃ ini last, pre = ini ++ [last] ∧ last.moneyMode = false)
    (hright : post = [] ∨ ∃ fr tail, post = fr :: tail ∧ fr.moneyMode = false)
    (hres : renderFrames fuel (pre ++ run ++ post) st0 = some res) :
    ∃ resPre first rest resPost, res = resPre ++ first :: rest ++ resPost ∧
      resPre.length = pre.length ∧ (first :: rest).length = run.length ∧
      resPost.length = post.length ∧
      playbackStarts first.2 = 1 ∧ (∀ r ∈ rest, playbackStarts r.2 = 0) ∧
      (∀ r ∈ first :: rest, r.1.soundPlayedFlag = true) ∧
      (∀ r tail, resPost = r :: tail → r.1.soundPlayedFlag = false) := by
  obtain ⟨r12, r3, h12, h3, rfl⟩ := renderFrames_append fuel (pre ++ run) post st0 res hres
  obtain ⟨r1, r2, h1, h2, rfl⟩ := renderFrames_append fuel pre run st0 r12 h12
  have hs1 : (endState st0 r1).previousMoney = false ∧
      (endState st0 r1).soundPlayedFlag = false ∧
      (endState st0 r1).i2sInitialized = true := by
    rcases hleft with hnil | ⟨ini, last, hpre, hl⟩
    · rw [hnil] at h1
      simp only [renderFrames, Option.some.injEq] at h1
      rw [← h1]
      exact ⟨hprev, hflag, hinit⟩
    · rw [hpre] at h1
      obtain ⟨ra, rb, ha, hb, hab⟩ := renderFrames_append fuel ini [last] st0 r1 h1
      obtain ⟨k1, k2⟩ := renderFrames_latch fuel ini st0 ra ha (fun _ => hflag)
      obtain ⟨rs, n1, _, n3, n4⟩ := renderFrames_normal fuel [last] (endState st0 ra)
        (fun x hx => by rw [List.mem_singleton.mp hx]; exact hl) k1
      rw [hb] at n1
      simp only [Option.some.injEq] at n1
      subst n1
      rw [hab, endState_append]
      obtain ⟨n5, n6⟩ := n3 (List.cons_ne_nil _ _)
      exact ⟨n6, n5, n4.trans (k2.trans hinit)⟩
  obtain ⟨p1, p2, p3⟩ := hs1
  cases run with
  | nil => exact absurd rfl hne
  | cons fr1 runRest =>
    simp only [renderFrames, Option.bind_eq_some, Option.map_eq_some'] at h2
    obtain ⟨r, hr, rs, hrs, hr2⟩ := h2
    obtain ⟨hm1, hf1, hb1⟩ := hrun fr1 (List.mem_cons_self _ _)
    obtain ⟨e1, e2, e3, e4⟩ :=
      renderFrame_edge_played fuel fr1 (endState st0 r1) r hm1 p1 p2 p3 hf1 hb1 hr
    obtain ⟨rs0, i1, i2, i3, i4, _⟩ := renderFrames_inside_episode fuel runRest r.1
      (fun x hx => (hrun x (List.mem_cons_of_mem _ hx)).1) e2
    rw [hrs] at i1
    simp only [Option.some.injEq] at i1
    subst i1
    subst hr2
    refine ⟨r1, r, rs, r3, rfl, renderFrames_length fuel pre st0 r1 h1, ?_,
      renderFrames_length fuel post _ r3 h3, e4, ?_, ?_, ?_⟩
    · simp [renderFrames_length fuel runRest r.1 rs hrs]
    · intro q hq
      obtain ⟨_, _, ops, ho⟩ := i2 q hq
      rw [ho]
      rfl
    · intro q hq
      rcases List.mem_cons.mp hq with h | h
      · rw [h]
        exact e1
      · exact (i2 q h).1.trans e1
    · intro q tail hq
      rcases hright with hnil | ⟨fr, ftail, hpost, hfr⟩
      · rw [hnil] at h3
        simp only [renderFrames, Option.some.injEq] at h3
        rw [← h3] at hq
        exact absurd hq (by simp)
      · rw [hpost, endState_append] at h3
        simp only [endState, renderFrames, Option.bind_eq_some, Option.map_eq_some'] at h3
        obtain ⟨q0, hq0, qs, _, hq3⟩ := h3
        rw [← hq3] at hq
        simp only [List.cons.injEq] at hq
        obtain ⟨g, hg, _, _, g4, _⟩ :=
          renderFrame_noedge_fields fuel fr (endState r.1 rs) (Or.inl hfr)
        rw [hq0] at hg
        simp only [Option.some.injEq] at hg
        rw [← hq.1, hg, g4, hfr, i4]
        rfl

/-- Witness of C1 (amended): a Normal frame, a Special episode of two frames (the second
a blink) and a Normal frame, with the 53-byte clip on the card. -/
theorem C1_one_playback_per_episode_witness :
    readyState.previousMoney = false ∧ readyState.soundPlayedFlag = false ∧
    readyState.i2sInitialized = true ∧
    (∀ fr ∈ [specialFrame, specialBlinkFrame], fr.moneyMode = true ∧
      fr.env.file.isSome = true ∧ fr.env.buffer.isSome = true) ∧
    [specialFrame, specialBlinkFrame] ≠ [] ∧
    ([normalFrame] = [] ∨
      ∃ ini last, [normalFrame] = ini ++ [last] ∧ last.moneyMode = false) ∧
    ([normalFrame] = [] ∨ ∃ fr tail, [normalFrame] = fr :: tail ∧ fr.moneyMode = false) ∧
    renderFrames 2 ([normalFrame] ++ [specialFrame, specialBlinkFrame] ++ [normalFrame])
      readyState = some episodeResult ∧
    ∃ resPre first rest resPost, episodeResult = resPre ++ first :: rest ++ resPost ∧
      resPre.length = [normalFrame].length ∧
      (first :: rest).length = [specialFrame, specialBlinkFrame].length ∧
      resPost.length = [normalFrame].length ∧
      playbackStarts first.2 = 1 ∧ (∀ r ∈ rest, playbackStarts r.2 = 0) ∧
      (∀ r ∈ first :: rest, r.1.soundPlayedFlag = true) ∧
      (∀ r tail, resPost = r :: tail → r.1.soundPlayedFlag = false) :=
  ⟨rfl, rfl, rfl, by decide, List.cons_ne_nil _ _, Or.inr ⟨[], normalFrame, rfl, rfl⟩,
    Or.inr ⟨normalFrame, [], rfl, rfl⟩, rfl,
    C1_one_playback_per_episode 2 [normalFrame] [specialFrame, specialBlinkFrame]
      [normalFrame] readyState episodeResult rfl rfl rfl (by decide) (List.cons_ne_nil _ _)
      (Or.inr ⟨[], normalFrame, rfl, rfl⟩) (Or.inr ⟨normalFrame, [], rfl, rfl⟩) rfl⟩

/-- Counterexample to C1 as stated: from the initial flags, with the audio channel
initialised and the WAV file openable, a Special episode of two frames during which
`malloc(4096)` fails: the file is opened and closed again, no sample reaches the I2S
driver, and `soundPlayedFlag` is false after both frames of the run. -/
theorem C1_counterexample :
    readyState.moneyMode = false ∧ readyState.previousMoney = false ∧
    readyState.soundPlayedFlag = false ∧ readyState.i2sInitialized = true ∧
    noMemoryFrame.moneyMode = true ∧ noMemoryFrame.env.file.isSome = true ∧
    renderFrames 2 [noMemoryFrame, noMemoryFrame] readyState =
      some [(silentState,
              [Event.pushSprite (drawOps true 0 0 false), Event.sdOpen true,
               Event.serial Msg.playing, Event.seek 44, Event.malloc false,
               Event.serial Msg.allocFailed, Event.close]),
            (silentState, [Event.pushSprite (drawOps true 0 0 false)])] ∧
    silentState.soundPlayedFlag = false := by
  decide

end MoneyEyes
